import Mathlib

/-!
Ultimate tic-tac-toe (`game/game.go`): shallow embedding and verified properties

The Go package `game` is embedded as pure Lean functions.

* A Go slice is a `List`; indexing `xs[i]` with an `int` index is `goIndex`, which
  yields `none` where Go raises a run-time panic (negative index or index past the end).
* A Go method with return type `(Cell, error)` becomes a function into `Result Cell`:
  `ok v` for `(v, nil)`, `error e` for `(None, e)`, and `panicked` when the call does not
  return because of a run-time panic.
* Methods on pointer receivers that mutate their receiver return the receiver's value
  after the call next to the result (explicit state passing).  The rows of a board and the
  nine sub-boards of an `Ultimate` are assumed not to alias each other, which is how
  `NewTicTacToe` and `NewUltimate` allocate them.
* `Position.Row` and `Position.Col` are Go `int`s, embedded as `Int`.  `Shift` is only ever
  applied to the constants of `DetectWin` (all in `[-1, 2]`), so no wrap-around can occur.
-/

namespace Utictac

/-! ## Cells, positions, errors -/

/-- The Go type `Cell` with its three declared constants `X`, `O`, `None`.  The package
never builds a `Cell` from another integer, so the three constants are all the values. -/
inductive Cell where
  | X
  | O
  | None
  deriving DecidableEq

/-- The Go struct `Position`. -/
structure Position where
  Row : Int
  Col : Int
  deriving DecidableEq

/-- The errors built with `fmt.Errorf` in `game.go`, one constructor per message. -/
inductive GameError where
  /-- "Position out of bounds ..." (`TicTacToe.CellAt`). -/
  | outOfBounds (p : Position)
  /-- "Cell already played" (`TicTacToe.Play`). -/
  | cellPlayed
  /-- "Outer game ... already won by ..." (`Ultimate.Play`). -/
  | outerWon (outer : Position) (winner : Cell)
  /-- "Invalid character in string: ..." (`ParseGame`). -/
  | invalidCharacter
  deriving DecidableEq

/-- Outcome of a Go call returning `(T, error)`: a value, an error, or a run-time panic. -/
inductive Result (α : Type) where
  | ok (v : α)
  | error (e : GameError)
  | panicked
  deriving DecidableEq

/-- Go `p.Shift(vector)`. -/
def Position.Shift (p vector : Position) : Position :=
  { Row := p.Row + vector.Row, Col := p.Col + vector.Col }

/-- Go slice indexing `xs[i]` for an `int` index: `none` stands for the index-out-of-range
panic. -/
def goIndex {α : Type} (xs : List α) (i : Int) : Option α :=
  if 0 ≤ i then xs[i.toNat]? else none

/-- Go slice element assignment `xs[i] = v`: `none` stands for the index-out-of-range
panic. -/
def goSet {α : Type} (xs : List α) (i : Int) (v : α) : Option (List α) :=
  if 0 ≤ i ∧ i.toNat < xs.length then some (xs.set i.toNat v) else none

/-! ## A single board -/

/-- The Go struct `TicTacToe`. -/
structure TicTacToe where
  Cells : List (List Cell)
  WonBy : Cell
  deriving DecidableEq

/-- Go `NewTicTacToe()`. -/
def NewTicTacToe : TicTacToe :=
  { Cells := [[Cell.None, Cell.None, Cell.None],
              [Cell.None, Cell.None, Cell.None],
              [Cell.None, Cell.None, Cell.None]],
    WonBy := Cell.None }

/-- Go `t.CellAt(p)`.  The guard compares with `>` and evaluates `t.Cells[p.Row]` inside
the condition, exactly as the source does. -/
def TicTacToe.CellAt (t : TicTacToe) (p : Position) : Result Cell :=
  if p.Row > (t.Cells.length : Int) then Result.error (GameError.outOfBounds p)
  else
    match goIndex t.Cells p.Row with
    | none => Result.panicked
    | some row =>
      if p.Col > (row.length : Int) then Result.error (GameError.outOfBounds p)
      else
        match goIndex row p.Col with
        | none => Result.panicked
        | some c => Result.ok c

/-- The Go idiom `cell, _ := t.CellAt(p)`: the error is dropped and the returned cell
(`None` on the error path) is used. -/
def TicTacToe.cellIgnoringError (t : TicTacToe) (p : Position) : Result Cell :=
  match t.CellAt p with
  | Result.ok c => Result.ok c
  | Result.error _ => Result.ok Cell.None
  | Result.panicked => Result.panicked

/-- The table `winConditions` of `DetectWin`: a start position and a direction per line. -/
def winConditions : List (Position × Position) :=
  [ (⟨0, 0⟩, ⟨0, 1⟩),
    (⟨1, 0⟩, ⟨0, 1⟩),
    (⟨2, 0⟩, ⟨0, 1⟩),
    (⟨0, 0⟩, ⟨1, 0⟩),
    (⟨0, 1⟩, ⟨1, 0⟩),
    (⟨0, 2⟩, ⟨1, 0⟩),
    (⟨0, 0⟩, ⟨1, 1⟩),
    (⟨2, 0⟩, ⟨-1, 1⟩) ]

/-- The `for _, condition := range winConditions` loop of `DetectWin`; `continue` is the
recursive call on the remaining conditions, falling off the end is `return None`. -/
def TicTacToe.detectWinLoop (t : TicTacToe) : List (Position × Position) → Result Cell
  | [] => Result.ok Cell.None
  | condition :: rest =>
    match t.cellIgnoringError condition.1 with
    | Result.panicked => Result.panicked
    | Result.error e => Result.error e
    | Result.ok cell =>
      if cell = Cell.None then t.detectWinLoop rest
      else
        let possibleWinner := cell
        let secondPosition := condition.1.Shift condition.2
        match t.cellIgnoringError secondPosition with
        | Result.panicked => Result.panicked
        | Result.error e => Result.error e
        | Result.ok cell2 =>
          if cell2 ≠ possibleWinner then t.detectWinLoop rest
          else
            let thirdPosition := secondPosition.Shift condition.2
            match t.cellIgnoringError thirdPosition with
            | Result.panicked => Result.panicked
            | Result.error e => Result.error e
            | Result.ok cell3 =>
              if cell3 ≠ possibleWinner then t.detectWinLoop rest
              else Result.ok possibleWinner

/-- Go `t.DetectWin()`.  The result is `ok` with the winner, or `panicked` when a cell read
runs past the end of a slice; it is never `error`, since the loop drops the errors of
`CellAt`. -/
def TicTacToe.DetectWin (t : TicTacToe) : Result Cell :=
  t.detectWinLoop winConditions

/-- The assignment `t.Cells[p.Row][p.Col] = ch`; `none` is an index-out-of-range panic. -/
def TicTacToe.assignCell (t : TicTacToe) (p : Position) (ch : Cell) : Option TicTacToe :=
  match goIndex t.Cells p.Row with
  | none => none
  | some row =>
    match goSet row p.Col ch with
    | none => none
    | some row1 =>
      match goSet t.Cells p.Row row1 with
      | none => none
      | some cells1 => some { t with Cells := cells1 }

/-- Go `t.Play(ch, p)`: the board after the call, and what the call returned. -/
def TicTacToe.Play (t : TicTacToe) (ch : Cell) (p : Position) : TicTacToe × Result Cell :=
  match t.CellAt p with
  | Result.panicked => (t, Result.panicked)
  | Result.error e => (t, Result.error e)
  | Result.ok cell =>
    if cell ≠ Cell.None then (t, Result.error GameError.cellPlayed)
    else
      match t.assignCell p ch with
      | none => (t, Result.panicked)
      | some t1 => (t1, t1.DetectWin)

/-! ## The game of nine boards -/

/-- The Go struct `Ultimate`.  The pointers `*TicTacToe` are embedded as the boards they
point to. -/
structure Ultimate where
  innerGames : List (List TicTacToe)
  metaGame : TicTacToe
  deriving DecidableEq

/-- Go `NewUltimate()`. -/
def NewUltimate : Ultimate :=
  { innerGames := [[NewTicTacToe, NewTicTacToe, NewTicTacToe],
                   [NewTicTacToe, NewTicTacToe, NewTicTacToe],
                   [NewTicTacToe, NewTicTacToe, NewTicTacToe]],
    metaGame := NewTicTacToe }

/-- Go `u.CellAt(p)`. -/
def Ultimate.CellAt (u : Ultimate) (p : Position) : Result Cell :=
  u.metaGame.CellAt p

/-- Go `u.GameAt(p)`, that is `u.innerGames[p.Row][p.Col]`; `none` is an
index-out-of-range panic. -/
def Ultimate.GameAt (u : Ultimate) (p : Position) : Option TicTacToe :=
  match goIndex u.innerGames p.Row with
  | none => none
  | some row => goIndex row p.Col

/-- State passing for the pointer returned by `GameAt`: the board `g` that a mutating
method left behind is stored back at `p`.  Only used at positions where `GameAt` returned
a board. -/
def Ultimate.storeGame (u : Ultimate) (p : Position) (g : TicTacToe) : Ultimate :=
  { u with innerGames :=
      u.innerGames.set p.Row.toNat ((u.innerGames.getD p.Row.toNat []).set p.Col.toNat g) }

/-- Go `u.Play(outer, inner, cell)`: the state after the call, and what the call returned.
The explicit `panic("Precondition failed...")` is `Result.panicked`. -/
def Ultimate.Play (u : Ultimate) (outer inner : Position) (cell : Cell) :
    Ultimate × Result Cell :=
  match u.metaGame.CellAt outer with
  | Result.panicked => (u, Result.panicked)
  | Result.error e => (u, Result.error e)
  | Result.ok metaCell =>
    if metaCell ≠ Cell.None then (u, Result.error (GameError.outerWon outer metaCell))
    else
      match u.GameAt outer with
      | none => (u, Result.panicked)
      | some game =>
        let played := game.Play cell inner
        let u1 := u.storeGame outer played.1
        match played.2 with
        | Result.panicked => (u1, Result.panicked)
        | Result.error e => (u1, Result.error e)
        | Result.ok winner =>
          if winner ≠ Cell.None then
            let metaPlayed := u1.metaGame.Play cell outer
            let u2 := { u1 with metaGame := metaPlayed.1 }
            match metaPlayed.2 with
            | Result.panicked => (u2, Result.panicked)
            | Result.error _ => (u2, Result.panicked)
            | Result.ok metaWinner =>
              if metaWinner ≠ Cell.None then (u2, Result.ok metaWinner)
              else (u2, Result.ok Cell.None)
          else (u1, Result.ok Cell.None)

/-! ## The console session -/

/-- The Go struct `UltimateRunner`; the nullable `*Position` is an `Option`. -/
structure UltimateRunner where
  Game : Ultimate
  CurrentTurn : Cell
  GamePosition : Option Position
  deriving DecidableEq

/-- Go `NewRunner()`. -/
def NewRunner : UltimateRunner :=
  { Game := NewUltimate, CurrentTurn := Cell.O, GamePosition := none }

/-- What one `reader.ReadString` followed by `ParsePosition` yields for a line of standard
input.  `ParsePosition` only calls the Go standard library (`strings.Split`,
`strings.TrimSpace`, `strconv.ParseInt`); its three possible outcomes are the input of the
session model. -/
inductive Line where
  /-- The call `reader.ReadString` returned an error. -/
  | unreadable
  /-- The call `ParsePosition` returned an error. -/
  | malformed
  /-- The call `ParsePosition` returned this position. -/
  | position (pos : Position)
  deriving DecidableEq

/-- How one pass through the body of the `for` loop of `Run` ends. -/
inductive IterStatus where
  /-- A `continue` after an error was printed. -/
  | rejected
  /-- The end of the loop body was reached: the move was applied and the turn passed. -/
  | moved
  /-- The branch `cell != None`: the winner is announced and `os.Exit(0)` is called. -/
  | exited
  /-- A run-time panic ended the program. -/
  | panicked
  deriving DecidableEq

/-- Session state after one pass through the loop body, how the pass ended, and the
input that is left. -/
structure IterResult where
  runner : UltimateRunner
  status : IterStatus
  rest : List Line
  deriving DecidableEq

/-- The second half of the loop body of `Run`, from the prompt "Enter move for game at"
on; `outer` is `*u.GamePosition`.  Reading from exhausted input is a read error. -/
def UltimateRunner.readMove (u : UltimateRunner) (outer : Position) (input : List Line) :
    IterResult :=
  match input with
  | [] => ⟨u, IterStatus.rejected, []⟩
  | Line.unreadable :: rest => ⟨u, IterStatus.rejected, rest⟩
  | Line.malformed :: rest => ⟨u, IterStatus.rejected, rest⟩
  | Line.position pos :: rest =>
    let played := u.Game.Play outer pos u.CurrentTurn
    let u1 := { u with Game := played.1 }
    match played.2 with
    | Result.panicked => ⟨u1, IterStatus.panicked, rest⟩
    | Result.error _ => ⟨u1, IterStatus.rejected, rest⟩
    | Result.ok cell =>
      if cell ≠ Cell.None then ⟨u1, IterStatus.exited, rest⟩
      else
        match u1.Game.GameAt pos with
        | none => ⟨u1, IterStatus.panicked, rest⟩
        | some game =>
          match game.DetectWin with
          | Result.panicked => ⟨u1, IterStatus.panicked, rest⟩
          | Result.error _ => ⟨u1, IterStatus.panicked, rest⟩
          | Result.ok win =>
            let u2 : UltimateRunner :=
              if win ≠ Cell.None then { u1 with GamePosition := none }
              else { u1 with GamePosition := some pos }
            let u3 : UltimateRunner :=
              if u2.CurrentTurn = Cell.O then { u2 with CurrentTurn := Cell.X }
              else { u2 with CurrentTurn := Cell.O }
            ⟨u3, IterStatus.moved, rest⟩

/-- One pass through the body of the `for` loop of `Run` (printing left out). -/
def UltimateRunner.RunIteration (u : UltimateRunner) (input : List Line) : IterResult :=
  match u.GamePosition with
  | some outer => u.readMove outer input
  | none =>
    match input with
    | [] => ⟨u, IterStatus.rejected, []⟩
    | Line.unreadable :: rest => ⟨u, IterStatus.rejected, rest⟩
    | Line.malformed :: rest => ⟨u, IterStatus.rejected, rest⟩
    | Line.position pos :: rest =>
      let u1 := { u with GamePosition := some pos }
      u1.readMove pos rest

/-! ## Text: the board encoding and the rendering of the game

A Go `string` holding text is embedded as the list of its characters.  `ParseGame` reads
single bytes with `rowStr[col]`; when rows are read from the left, the bytes in front of
the first character outside ASCII are the characters themselves and the first byte of a
character outside ASCII is none of `'X'`, `'O'`, `'-'`, so reading the `col`-th
character gives the same outcome as reading the `col`-th byte. -/

/-- Go `unicode.IsSpace`, the white space that `strings.TrimSpace` removes: tab, line feed,
vertical tab, form feed, carriage return, space, U+0085, U+00A0 and the other code points
with the Unicode property White_Space. -/
def isSpace (c : Char) : Bool :=
  decide (c.toNat = 0x09 ∨ c.toNat = 0x0A ∨ c.toNat = 0x0B ∨ c.toNat = 0x0C ∨
    c.toNat = 0x0D ∨ c.toNat = 0x20 ∨ c.toNat = 0x85 ∨ c.toNat = 0xA0 ∨
    c.toNat = 0x1680 ∨ (0x2000 ≤ c.toNat ∧ c.toNat ≤ 0x200A) ∨ c.toNat = 0x2028 ∨
    c.toNat = 0x2029 ∨ c.toNat = 0x202F ∨ c.toNat = 0x205F ∨ c.toNat = 0x3000)

/-- Go `strings.TrimSpace(s)`: `s` without its leading and trailing white space. -/
def TrimSpace (s : List Char) : List Char :=
  ((s.dropWhile isSpace).reverse.dropWhile isSpace).reverse

/-- Go `strings.Split(s, sep)` for a separator of one character: the pieces of `s` between
the occurrences of `sep`; a text without `sep` (also the empty text) is its only piece. -/
def Split (s : List Char) (sep : Char) : List (List Char) :=
  match s with
  | [] => [[]]
  | c :: cs =>
    if c = sep then [] :: Split cs sep
    else
      match Split cs sep with
      | [] => [[c]]
      | piece :: pieces => (c :: piece) :: pieces

/-- The `switch rowStr[col]` of `ParseGame`: the cell a character stands for, `none` for
the `default` branch. -/
def runeCell (ch : Char) : Option Cell :=
  if ch = 'X' then some Cell.X
  else if ch = 'O' then some Cell.O
  else if ch = '-' then some Cell.None
  else none

/-- The inner loop `for col := 0; col < 3; col++` of `ParseGame` over the columns still to
do. -/
def parseColumns (game : TicTacToe) (rowStr : List Char) (row : Int) :
    List Int → Result TicTacToe
  | [] => Result.ok game
  | col :: cols =>
    match goIndex rowStr col with
    | none => Result.panicked
    | some ch =>
      match runeCell ch with
      | none => Result.error GameError.invalidCharacter
      | some cell =>
        match game.assignCell ⟨row, col⟩ cell with
        | none => Result.panicked
        | some game1 => parseColumns game1 rowStr row cols

/-- The outer loop `for row := 0; row < 3; row++` of `ParseGame` over the rows still to
do. -/
def parseRows (cells : List (List Char)) : TicTacToe → List Int → Result TicTacToe
  | game, [] => Result.ok game
  | game, row :: rows =>
    match goIndex cells row with
    | none => Result.panicked
    | some line =>
      match parseColumns game (TrimSpace line) row [0, 1, 2] with
      | Result.ok game1 => parseRows cells game1 rows
      | Result.error e => Result.error e
      | Result.panicked => Result.panicked

/-- Go `ParseGame(gameStr)`. -/
def ParseGame (gameStr : List Char) : Result TicTacToe :=
  parseRows (Split (TrimSpace gameStr) '\n') NewTicTacToe [0, 1, 2]

/-- The rune that the `switch` of `Cell.String` and of `TicTacToe.String` picks. -/
def Cell.toRune (c : Cell) : Char :=
  match c with
  | Cell.X => 'X'
  | Cell.O => 'O'
  | Cell.None => '-'

/-- Go `c.String()`, that is `fmt.Sprintf("%c", ch)`. -/
def Cell.String (c : Cell) : List Char := [c.toRune]

/-- The inner loop of `TicTacToe.String` over the columns still to do.  The `default`
branch of its `switch` (`panic("Invalid Cell value")`) cannot be taken by one of the three
cell values. -/
def TicTacToe.stringColumns (t : TicTacToe) (row : Int) :
    List Int → List Char → Result (List Char)
  | [], retRunes => Result.ok retRunes
  | col :: cols, retRunes =>
    match goIndex t.Cells row with
    | none => Result.panicked
    | some cellRow =>
      match goIndex cellRow col with
      | none => Result.panicked
      | some cell => t.stringColumns row cols (retRunes ++ [cell.toRune])

/-- The outer loop of `TicTacToe.String` over the rows still to do. -/
def TicTacToe.stringRows (t : TicTacToe) : List Int → List Char → Result (List Char)
  | [], retRunes => Result.ok retRunes
  | row :: rows, retRunes =>
    match t.stringColumns row [0, 1, 2] (if row ≥ 1 then retRunes ++ ['\n'] else retRunes) with
    | Result.ok retRunes1 => t.stringRows rows retRunes1
    | Result.error e => Result.error e
    | Result.panicked => Result.panicked

/-- Go `t.String()`. -/
def TicTacToe.String (t : TicTacToe) : Result (List Char) :=
  t.stringRows [0, 1, 2] []

/-- The format string of `Ultimate.String`. -/
def ultimateTemplate : List Char :=
  ("\n+-----++-----++-----+\n" ++
   "| %s%s%s || %s%s%s || %s%s%s |\n" ++
   "| %s%s%s || %s%s%s || %s%s%s |\n" ++
   "| %s%s%s || %s%s%s || %s%s%s |\n" ++
   "+-----++-----++-----+\n" ++
   "| %s%s%s || %s%s%s || %s%s%s |\n" ++
   "| %s%s%s || %s%s%s || %s%s%s |\n" ++
   "| %s%s%s || %s%s%s || %s%s%s |\n" ++
   "+-----++-----++-----+\n" ++
   "| %s%s%s || %s%s%s || %s%s%s |\n" ++
   "| %s%s%s || %s%s%s || %s%s%s |\n" ++
   "| %s%s%s || %s%s%s || %s%s%s |\n" ++
   "+-----++-----++-----+\n").toList

/-- Go `fmt.Sprintf(format, args...)` for a format whose only verbs are `%s` and
arguments that are strings: each `%s` is replaced by the next argument, and by
`%!s(MISSING)` when the arguments have run out.  Arguments left over at the end are
dropped here (Go appends an `%!(EXTRA ...)` note); `Ultimate.String` always passes as many
arguments as its format has verbs. -/
def Sprintf : List Char → List (List Char) → List Char
  | [], _ => []
  | '%' :: 's' :: format, arg :: args => arg ++ Sprintf format args
  | '%' :: 's' :: format, [] => "%!s(MISSING)".toList ++ Sprintf format []
  | c :: format, args => c :: Sprintf format args

/-- The body of the inner loop of `Ultimate.String`: the text appended to `toFmt` for the
grid position `(row, col)`.  Go's `/` and `%` on `int` truncate toward zero. -/
def Ultimate.stringCell (u : Ultimate) (oFormatter xFormatter normalFormatter : List Char → List Char)
    (row col : Int) : Result (List Char) :=
  let gamePosition : Position := ⟨Int.tdiv row 3, Int.tdiv col 3⟩
  let cellPosition : Position := ⟨Int.tmod row 3, Int.tmod col 3⟩
  match u.GameAt gamePosition with
  | none => Result.panicked
  | some game =>
    match game.cellIgnoringError cellPosition with
    | Result.panicked => Result.panicked
    | Result.error e => Result.error e
    | Result.ok cell =>
      match game.DetectWin with
      | Result.panicked => Result.panicked
      | Result.error e => Result.error e
      | Result.ok win =>
        if win = Cell.O then Result.ok (oFormatter cell.String)
        else if win = Cell.X then Result.ok (xFormatter cell.String)
        else Result.ok (normalFormatter cell.String)

/-- The inner loop `for col := 0; col < 9; col++` of `Ultimate.String`. -/
def Ultimate.stringColumns (u : Ultimate) (oFormatter xFormatter normalFormatter : List Char → List Char)
    (row : Int) : List Int → List (List Char) → Result (List (List Char))
  | [], toFmt => Result.ok toFmt
  | col :: cols, toFmt =>
    match u.stringCell oFormatter xFormatter normalFormatter row col with
    | Result.ok text =>
      u.stringColumns oFormatter xFormatter normalFormatter row cols (toFmt ++ [text])
    | Result.error e => Result.error e
    | Result.panicked => Result.panicked

/-- The outer loop `for row := 0; row < 9; row++` of `Ultimate.String`. -/
def Ultimate.stringRows (u : Ultimate) (oFormatter xFormatter normalFormatter : List Char → List Char) :
    List Int → List (List Char) → Result (List (List Char))
  | [], toFmt => Result.ok toFmt
  | row :: rows, toFmt =>
    match u.stringColumns oFormatter xFormatter normalFormatter row
        [0, 1, 2, 3, 4, 5, 6, 7, 8] toFmt with
    | Result.ok toFmt1 => u.stringRows oFormatter xFormatter normalFormatter rows toFmt1
    | Result.error e => Result.error e
    | Result.panicked => Result.panicked

/-- Go `u.String(oFormatter, xFormatter, normalFormatter)`; each formatter is called with
one string and returns a string. -/
def Ultimate.String (u : Ultimate) (oFormatter xFormatter normalFormatter : List Char → List Char) :
    Result (List Char) :=
  match u.stringRows oFormatter xFormatter normalFormatter [0, 1, 2, 3, 4, 5, 6, 7, 8] [] with
  | Result.ok toFmt => Result.ok (Sprintf ultimateTemplate toFmt)
  | Result.error e => Result.error e
  | Result.panicked => Result.panicked

/-! ## Vocabulary of the specification -/

/-- A position that addresses a cell of a 3x3 board: both coordinates in `[0, 2]`. -/
def Position.InRange (p : Position) : Prop :=
  0 ≤ p.Row ∧ p.Row ≤ 2 ∧ 0 ≤ p.Col ∧ p.Col ≤ 2

instance (p : Position) : Decidable p.InRange := by
  unfold Position.InRange; infer_instance

/-- The shape every board built by `NewTicTacToe` has: three rows of three cells. -/
def TicTacToe.Is3x3 (t : TicTacToe) : Prop :=
  t.Cells.length = 3 ∧ ∀ row ∈ t.Cells, row.length = 3

instance (t : TicTacToe) : Decidable t.Is3x3 := by
  unfold TicTacToe.Is3x3; infer_instance

/-- The three positions of a line. -/
abbrev Line3 := Position × Position × Position

/-- Position `p` is one of the three positions of the line `l`. -/
def Line3.Has (l : Line3) (p : Position) : Prop := p = l.1 ∨ p = l.2.1 ∨ p = l.2.2

instance (l : Line3) (p : Position) : Decidable (l.Has p) := by
  unfold Line3.Has; infer_instance

/-- The eight lines of a 3x3 board in the enumeration order of the specification:
row 0, row 1, row 2, column 0, column 1, column 2, main diagonal, anti-diagonal. -/
def theLines : List Line3 :=
  [ (⟨0, 0⟩, ⟨0, 1⟩, ⟨0, 2⟩),
    (⟨1, 0⟩, ⟨1, 1⟩, ⟨1, 2⟩),
    (⟨2, 0⟩, ⟨2, 1⟩, ⟨2, 2⟩),
    (⟨0, 0⟩, ⟨1, 0⟩, ⟨2, 0⟩),
    (⟨0, 1⟩, ⟨1, 1⟩, ⟨2, 1⟩),
    (⟨0, 2⟩, ⟨1, 2⟩, ⟨2, 2⟩),
    (⟨0, 0⟩, ⟨1, 1⟩, ⟨2, 2⟩),
    (⟨2, 0⟩, ⟨1, 1⟩, ⟨0, 2⟩) ]

/-- Specification of a won line: `some m` when the three cells of `l` all hold the same
mark `m` and `m` is not `None`, otherwise `none`. -/
def TicTacToe.lineWinner (t : TicTacToe) (l : Line3) : Option Cell :=
  match t.CellAt l.1, t.CellAt l.2.1, t.CellAt l.2.2 with
  | Result.ok a, Result.ok b, Result.ok c =>
    if a ≠ Cell.None ∧ b = a ∧ c = a then some a else none
  | _, _, _ => none

/-- Specification of the winner: the mark of the first won line in the enumeration order,
`None` when no line is won. -/
def TicTacToe.firstLineWinner (t : TicTacToe) : Cell :=
  (theLines.findSome? t.lineWinner).getD Cell.None

/-- The three positions that the loop body of `DetectWin` visits for a start position and
a direction. -/
def conditionLine (condition : Position × Position) : Line3 :=
  (condition.1, condition.1.Shift condition.2, (condition.1.Shift condition.2).Shift condition.2)

/-- The board `t` with the cell at `p` replaced by `ch` (what `assignCell` builds when the
indices are in range). -/
def TicTacToe.withCell (t : TicTacToe) (p : Position) (ch : Cell) : TicTacToe :=
  { t with Cells :=
      t.Cells.set p.Row.toNat ((t.Cells.getD p.Row.toNat []).set p.Col.toNat ch) }

/-- State of a board after a sequence of `Play` calls, whatever each call returns. -/
def TicTacToe.playAll (t : TicTacToe) (moves : List (Cell × Position)) : TicTacToe :=
  moves.foldl (fun s mv => (s.Play mv.1 mv.2).1) t

/-- The shape every state built by `NewUltimate` has: a 3x3 grid of 3x3 boards and a 3x3
meta-board. -/
def Ultimate.WellFormed (u : Ultimate) : Prop :=
  (u.innerGames.length = 3 ∧ ∀ row ∈ u.innerGames, row.length = 3) ∧
  (∀ row ∈ u.innerGames, ∀ g ∈ row, g.Is3x3) ∧ u.metaGame.Is3x3

instance (u : Ultimate) : Decidable u.WellFormed := by
  unfold Ultimate.WellFormed; infer_instance

/-- State after a sequence of `Ultimate.Play` calls `(outer, inner, cell)`, whatever each
call returns. -/
def Ultimate.playAll (u : Ultimate) (moves : List (Position × Position × Cell)) : Ultimate :=
  moves.foldl (fun s mv => (s.Play mv.1 mv.2.1 mv.2.2).1) u

/-- States that `NewUltimate()` followed by any sequence of `Play` calls with marks `X` or
`O` can be in (the state is taken after every call, whatever it returned). -/
inductive Ultimate.Reachable : Ultimate → Prop where
  | init : Ultimate.Reachable NewUltimate
  | play (u : Ultimate) (outer inner : Position) (cell : Cell) :
      Ultimate.Reachable u → (cell = Cell.X ∨ cell = Cell.O) →
      Ultimate.Reachable (u.Play outer inner cell).1

/-- The meta-board cell at every position is the winner of the sub-board there. -/
def Ultimate.Mirrors (u : Ultimate) : Prop :=
  ∀ p : Position, p.InRange →
    ∃ g c, u.GameAt p = some g ∧ g.DetectWin = Result.ok c ∧ u.CellAt p = Result.ok c

/-- Nine `X` moves that win the sub-boards `(0,0)`, `(0,1)`, `(0,2)` by their top rows. -/
def xWinsTopRow : List (Position × Position × Cell) :=
  [ (⟨0, 0⟩, ⟨0, 0⟩, Cell.X), (⟨0, 0⟩, ⟨0, 1⟩, Cell.X), (⟨0, 0⟩, ⟨0, 2⟩, Cell.X),
    (⟨0, 1⟩, ⟨0, 0⟩, Cell.X), (⟨0, 1⟩, ⟨0, 1⟩, Cell.X), (⟨0, 1⟩, ⟨0, 2⟩, Cell.X),
    (⟨0, 2⟩, ⟨0, 0⟩, Cell.X), (⟨0, 2⟩, ⟨0, 1⟩, Cell.X), (⟨0, 2⟩, ⟨0, 2⟩, Cell.X) ]

/-- Eight `O` moves after which the sub-boards `(1,0)` and `(1,1)` are won by `O` and the
sub-board `(1,2)` holds `O` on two cells of its top row. -/
def oAlmostWinsMiddleRow : List (Position × Position × Cell) :=
  [ (⟨1, 0⟩, ⟨0, 0⟩, Cell.O), (⟨1, 0⟩, ⟨0, 1⟩, Cell.O), (⟨1, 0⟩, ⟨0, 2⟩, Cell.O),
    (⟨1, 1⟩, ⟨0, 0⟩, Cell.O), (⟨1, 1⟩, ⟨0, 1⟩, Cell.O), (⟨1, 1⟩, ⟨0, 2⟩, Cell.O),
    (⟨1, 2⟩, ⟨0, 0⟩, Cell.O), (⟨1, 2⟩, ⟨0, 1⟩, Cell.O) ]

/-- Three `X` moves that win the sub-board `(1,1)` by its top row. -/
def xWinsCentre : List (Position × Position × Cell) :=
  [ (⟨1, 1⟩, ⟨0, 0⟩, Cell.X), (⟨1, 1⟩, ⟨0, 1⟩, Cell.X), (⟨1, 1⟩, ⟨0, 2⟩, Cell.X) ]

/-- A fresh game whose sub-board `(1,2)` was replaced by the board `XXO / O-O / X-O`, the
way `TestUltimateString` builds its state (`ult.innerGames[1][2] = innerGame1`). -/
def handBuiltState : Ultimate :=
  NewUltimate.storeGame ⟨1, 2⟩
    { Cells := [[Cell.X, Cell.X, Cell.O], [Cell.O, Cell.None, Cell.O],
                [Cell.X, Cell.None, Cell.O]],
      WonBy := Cell.None }

/-- Eight `X` moves after which the sub-boards `(0,0)` and `(0,1)` are won by `X` and the
sub-board `(0,2)` holds `X` on two cells of its top row. -/
def xAlmostWinsTopRow : List (Position × Position × Cell) :=
  [ (⟨0, 0⟩, ⟨0, 0⟩, Cell.X), (⟨0, 0⟩, ⟨0, 1⟩, Cell.X), (⟨0, 0⟩, ⟨0, 2⟩, Cell.X),
    (⟨0, 1⟩, ⟨0, 0⟩, Cell.X), (⟨0, 1⟩, ⟨0, 1⟩, Cell.X), (⟨0, 1⟩, ⟨0, 2⟩, Cell.X),
    (⟨0, 2⟩, ⟨0, 0⟩, Cell.X), (⟨0, 2⟩, ⟨0, 1⟩, Cell.X) ]

/-- Sessions that `NewRunner()` followed by any number of passes through the loop of `Run`
can be in; the loop only goes on after a pass that ended in `continue` or reached the end
of the body. -/
inductive UltimateRunner.Reachable : UltimateRunner → Prop where
  | init : UltimateRunner.Reachable NewRunner
  | step (s : UltimateRunner) (input : List Line) :
      UltimateRunner.Reachable s →
      ((s.RunIteration input).status = IterStatus.rejected ∨
        (s.RunIteration input).status = IterStatus.moved) →
      UltimateRunner.Reachable (s.RunIteration input).runner

/-- A full board without a winner. -/
def drawnBoard : TicTacToe :=
  { Cells := [[Cell.X, Cell.O, Cell.X], [Cell.X, Cell.O, Cell.O], [Cell.O, Cell.X, Cell.X]],
    WonBy := Cell.None }

/-- A session with free choice whose sub-board `(1,1)` is full without a winner. -/
def drawnCentreSession : UltimateRunner :=
  { Game := NewUltimate.storeGame ⟨1, 1⟩ drawnBoard, CurrentTurn := Cell.O,
    GamePosition := none }

/-- The mark a character of the board encoding names: `'X'` is `X`, `'O'` is `O` and
`'-'` is `None` (the empty cell). -/
def markOf (ch : Char) : Cell :=
  if ch = 'X' then Cell.X else if ch = 'O' then Cell.O else Cell.None

/-- A character of the board encoding: one of `'X'`, `'O'`, `'-'`. -/
def IsBoardRune (ch : Char) : Prop := ch = 'X' ∨ ch = 'O' ∨ ch = '-'

instance (ch : Char) : Decidable (IsBoardRune ch) := by
  unfold IsBoardRune; infer_instance

/-- The cell shown at row `r` and column `c` of the 9x9 grid: the cell at position
`(r mod 3, c mod 3)` of the sub-board at `(r div 3, c div 3)`. -/
def Ultimate.gridCell (u : Ultimate) (r c : Int) : Cell :=
  match u.GameAt ⟨r / 3, c / 3⟩ with
  | none => Cell.None
  | some g =>
    match g.CellAt ⟨r % 3, c % 3⟩ with
    | Result.ok cell => cell
    | _ => Cell.None

/-- The separator line of the rendering, with its line feed. -/
def separatorLine : List Char := "+-----++-----++-----+\n".toList

/-- A cell line of the rendering, with its line feed: `| ccc || ccc || ccc |` for the nine
characters `ch 0`, ..., `ch 8`. -/
def cellLine (ch : Int → Char) : List Char :=
  "| ".toList ++ [ch 0, ch 1, ch 2] ++ " || ".toList ++ [ch 3, ch 4, ch 5] ++ " || ".toList ++
    [ch 6, ch 7, ch 8] ++ " |\n".toList

/-- The rendering of a 9x9 grid of characters: a line feed, then thirteen lines, with a
separator before, between and after the three bands of three cell lines. -/
def renderGrid (ch : Int → Int → Char) : List Char :=
  '\n' :: (separatorLine ++ cellLine (ch 0) ++ cellLine (ch 1) ++ cellLine (ch 2) ++
    separatorLine ++ cellLine (ch 3) ++ cellLine (ch 4) ++ cellLine (ch 5) ++
    separatorLine ++ cellLine (ch 6) ++ cellLine (ch 7) ++ cellLine (ch 8) ++
    separatorLine)

/-- The state of `TestUltimateString`: a fresh game whose sub-boards `(1,2)` and `(2,2)`
were replaced by `XXO / O-O / X-O` and `X-O / -XO / XOX`. -/
def testStringState : Ultimate :=
  (NewUltimate.storeGame ⟨1, 2⟩
    { Cells := [[Cell.X, Cell.X, Cell.O], [Cell.O, Cell.None, Cell.O],
                [Cell.X, Cell.None, Cell.O]],
      WonBy := Cell.None }).storeGame ⟨2, 2⟩
    { Cells := [[Cell.X, Cell.None, Cell.O], [Cell.None, Cell.X, Cell.O],
                [Cell.X, Cell.O, Cell.X]],
      WonBy := Cell.None }

/-- A fresh session in which the board `(5,5)` was typed when any board could be chosen. -/
def stuckSession : UltimateRunner :=
  { Game := NewUltimate, CurrentTurn := Cell.O, GamePosition := some ⟨5, 5⟩ }

theorem grid_3x3_shape {α : Type} (xs : List (List α))
    (h : xs.length = 3 ∧ ∀ row ∈ xs, row.length = 3) :
    ∃ a b c d e f g h i, xs = [[a, b, c], [d, e, f], [g, h, i]] := by
  obtain ⟨hl, hr⟩ := h
  match xs, hl with
  | [r0, r1, r2], _ =>
    have h0 := hr r0 (by simp)
    have h1 := hr r1 (by simp)
    have h2 := hr r2 (by simp)
    match r0, h0, r1, h1, r2, h2 with
    | [a, b, c], _, [d, e, f], _, [g, h, i], _ =>
      exact ⟨a, b, c, d, e, f, g, h, i, rfl⟩

theorem inRange_cases (p : Position) (h : p.InRange) :
    p = ⟨0, 0⟩ ∨ p = ⟨0, 1⟩ ∨ p = ⟨0, 2⟩ ∨ p = ⟨1, 0⟩ ∨ p = ⟨1, 1⟩ ∨ p = ⟨1, 2⟩ ∨
    p = ⟨2, 0⟩ ∨ p = ⟨2, 1⟩ ∨ p = ⟨2, 2⟩ := by
  obtain ⟨r, c⟩ := p
  obtain ⟨h1, h2, h3, h4⟩ := h
  simp only at h1 h2 h3 h4
  interval_cases r <;> interval_cases c <;> simp

theorem goIndex_eq_some_bounds {α : Type} (xs : List α) (i : Int) (v : α)
    (h : goIndex xs i = some v) : 0 ≤ i ∧ i < xs.length := by
  unfold goIndex at h
  split at h
  · rename_i h0
    obtain ⟨hlt, -⟩ := List.getElem?_eq_some.mp h
    refine ⟨h0, ?_⟩
    omega
  · cases h

theorem TicTacToe.CellAt_ok_inRange (t : TicTacToe) (h3 : t.Is3x3) (p : Position) (c : Cell)
    (h : t.CellAt p = Result.ok c) : p.InRange := by
  unfold TicTacToe.CellAt at h
  split at h
  · cases h
  · split at h
    · cases h
    · rename_i row hrow
      split at h
      · cases h
      · split at h
        · cases h
        · rename_i c1 hc
          have hb1 := goIndex_eq_some_bounds _ _ _ hrow
          have hb2 := goIndex_eq_some_bounds _ _ _ hc
          have hmem : row ∈ t.Cells := by
            unfold goIndex at hrow
            split at hrow
            · exact List.getElem?_mem hrow
            · cases hrow
          have hl := h3.2 row hmem
          have hl0 := h3.1
          unfold Position.InRange
          omega

theorem TicTacToe.CellAt_ok_of_inRange (t : TicTacToe) (h3 : t.Is3x3) (p : Position)
    (hp : p.InRange) : ∃ c, t.CellAt p = Result.ok c := by
  obtain ⟨cells, w⟩ := t
  obtain ⟨a, b, c, d, e, f, g, h, i, rfl⟩ := grid_3x3_shape cells h3
  rcases inRange_cases p hp with rfl | rfl | rfl | rfl | rfl | rfl | rfl | rfl | rfl <;>
    simp [TicTacToe.CellAt, goIndex]

theorem TicTacToe.Play_of_occupied (t : TicTacToe) (ch : Cell) (p : Position) (c : Cell)
    (h : t.CellAt p = Result.ok c) (hc : c ≠ Cell.None) :
    t.Play ch p = (t, Result.error GameError.cellPlayed) := by
  simp [TicTacToe.Play, h, hc]

theorem TicTacToe.Play_of_error (t : TicTacToe) (ch : Cell) (p : Position) (e : GameError)
    (h : t.CellAt p = Result.error e) : t.Play ch p = (t, Result.error e) := by
  simp [TicTacToe.Play, h]

theorem TicTacToe.Play_of_panicked (t : TicTacToe) (ch : Cell) (p : Position)
    (h : t.CellAt p = Result.panicked) : t.Play ch p = (t, Result.panicked) := by
  simp [TicTacToe.Play, h]

theorem TicTacToe.withCell_spec (t : TicTacToe) (h3 : t.Is3x3) (ch : Cell) (p : Position)
    (hp : p.InRange) :
    t.assignCell p ch = some (t.withCell p ch) ∧ (t.withCell p ch).Is3x3 ∧
      (t.withCell p ch).WonBy = t.WonBy ∧
      (t.withCell p ch).CellAt p = Result.ok ch ∧
      ∀ q : Position, q.InRange → q ≠ p → (t.withCell p ch).CellAt q = t.CellAt q := by
  obtain ⟨cells, w⟩ := t
  obtain ⟨a, b, c, d, e, f, g, h, i, rfl⟩ := grid_3x3_shape cells h3
  rcases inRange_cases p hp with rfl | rfl | rfl | rfl | rfl | rfl | rfl | rfl | rfl <;>
    refine ⟨by simp [TicTacToe.withCell, TicTacToe.assignCell, goIndex, goSet],
      by simp [TicTacToe.withCell, TicTacToe.Is3x3], rfl,
      by simp [TicTacToe.withCell, TicTacToe.CellAt, goIndex], ?_⟩ <;>
    intro q hq hne <;>
    rcases inRange_cases q hq with rfl | rfl | rfl | rfl | rfl | rfl | rfl | rfl | rfl <;>
    simp [TicTacToe.withCell, TicTacToe.CellAt, goIndex] at hne ⊢

theorem TicTacToe.Play_of_empty (t : TicTacToe) (h3 : t.Is3x3) (ch : Cell) (p : Position)
    (hp : p.InRange) (h : t.CellAt p = Result.ok Cell.None) :
    t.Play ch p = (t.withCell p ch, (t.withCell p ch).DetectWin) := by
  simp [TicTacToe.Play, h, (t.withCell_spec h3 ch p hp).1]

theorem TicTacToe.lineWinner_eq_some_iff (t : TicTacToe) (l : Line3) (m : Cell) :
    t.lineWinner l = some m ↔
      m ≠ Cell.None ∧ t.CellAt l.1 = Result.ok m ∧ t.CellAt l.2.1 = Result.ok m ∧
        t.CellAt l.2.2 = Result.ok m := by
  unfold TicTacToe.lineWinner
  split
  · rename_i a b c h1 h2 h3
    rw [h1, h2, h3]
    constructor
    · intro h
      split at h
      · rename_i hc
        obtain ⟨ha, hb, hc⟩ := hc
        cases h
        subst hb hc
        exact ⟨ha, rfl, rfl, rfl⟩
      · cases h
    · rintro ⟨hm, ha, hb, hc⟩
      cases ha; cases hb; cases hc
      simp [hm]
  · rename_i hne
    constructor
    · intro h; cases h
    · rintro ⟨-, ha, hb, hc⟩
      exact (hne _ _ _ ha hb hc).elim

/-- One pass of the loop of `DetectWin` over a line whose three cells can be read. -/
theorem TicTacToe.detectWinLoop_cons (t : TicTacToe) (condition : Position × Position)
    (rest : List (Position × Position)) (a b c : Cell)
    (h1 : t.CellAt (conditionLine condition).1 = Result.ok a)
    (h2 : t.CellAt (conditionLine condition).2.1 = Result.ok b)
    (h3 : t.CellAt (conditionLine condition).2.2 = Result.ok c) :
    t.detectWinLoop (condition :: rest) =
      match t.lineWinner (conditionLine condition) with
      | some m => Result.ok m
      | none => t.detectWinLoop rest := by
  simp only [conditionLine] at h1 h2 h3
  simp only [TicTacToe.detectWinLoop, TicTacToe.cellIgnoringError, TicTacToe.lineWinner,
    conditionLine, h1, h2, h3]
  by_cases ha : a = Cell.None
  · simp [ha]
  · by_cases hb : b = a
    · by_cases hc : c = a
      · simp [ha, hb, hc]
      · simp [ha, hb, hc]
    · simp [ha, hb]

theorem TicTacToe.detectWinLoop_eq (t : TicTacToe) (conditions : List (Position × Position))
    (h : ∀ cd ∈ conditions, ∀ p : Position, (conditionLine cd).Has p → ∃ c, t.CellAt p = Result.ok c) :
    t.detectWinLoop conditions =
      Result.ok (((conditions.map conditionLine).findSome? t.lineWinner).getD Cell.None) := by
  induction conditions with
  | nil => simp [TicTacToe.detectWinLoop]
  | cons cd rest ih =>
    obtain ⟨a, ha⟩ := h cd (by simp) (conditionLine cd).1 (Or.inl rfl)
    obtain ⟨b, hb⟩ := h cd (by simp) (conditionLine cd).2.1 (Or.inr (Or.inl rfl))
    obtain ⟨c, hc⟩ := h cd (by simp) (conditionLine cd).2.2 (Or.inr (Or.inr rfl))
    rw [t.detectWinLoop_cons cd rest a b c ha hb hc, List.map_cons, List.findSome?_cons]
    cases hl : t.lineWinner (conditionLine cd) with
    | some m => simp
    | none =>
      simp only
      exact ih (fun cd1 hmem => h cd1 (List.mem_cons_of_mem _ hmem))

theorem theLines_eq : theLines = winConditions.map conditionLine := by decide

theorem theLines_inRange (l : Line3) (hl : l ∈ theLines) (p : Position) (hp : l.Has p) :
    p.InRange := by
  have h : ∀ l ∈ theLines, l.1.InRange ∧ l.2.1.InRange ∧ l.2.2.InRange := by decide
  obtain ⟨h1, h2, h3⟩ := h l hl
  rcases hp with rfl | rfl | rfl <;> assumption

/-- On a 3x3 board `DetectWin` returns the mark of the first complete line. -/
theorem TicTacToe.DetectWin_eq (t : TicTacToe) (h3 : t.Is3x3) :
    t.DetectWin = Result.ok t.firstLineWinner := by
  unfold TicTacToe.DetectWin TicTacToe.firstLineWinner
  rw [theLines_eq]
  apply t.detectWinLoop_eq
  intro cd hcd p hp
  exact t.CellAt_ok_of_inRange h3 p
    (theLines_inRange (conditionLine cd) (by rw [theLines_eq]; exact List.mem_map_of_mem _ hcd) p hp)

theorem TicTacToe.firstLineWinner_eq_none_iff (t : TicTacToe) :
    t.firstLineWinner = Cell.None ↔ ∀ l ∈ theLines, t.lineWinner l = none := by
  unfold TicTacToe.firstLineWinner
  cases hf : theLines.findSome? t.lineWinner with
  | none => simpa using hf
  | some m =>
    obtain ⟨l, hl, hm⟩ := List.exists_of_findSome?_eq_some hf
    have hne := ((t.lineWinner_eq_some_iff l m).mp hm).1
    simp only [Option.getD_some]
    constructor
    · intro h; exact absurd h hne
    · intro h; rw [h l hl] at hm; cases hm

theorem TicTacToe.firstLineWinner_mem (t : TicTacToe) (m : Cell) (hm : m ≠ Cell.None)
    (h : t.firstLineWinner = m) : ∃ l ∈ theLines, t.lineWinner l = some m := by
  unfold TicTacToe.firstLineWinner at h
  cases hf : theLines.findSome? t.lineWinner with
  | none => rw [hf] at h; simp at h; exact absurd h.symm hm
  | some m1 =>
    rw [hf] at h; simp at h; subst h
    exact List.exists_of_findSome?_eq_some hf

/-- Any call of `Play` on a 3x3 board leaves a 3x3 board. -/
theorem TicTacToe.Play_is3x3 (t : TicTacToe) (h3 : t.Is3x3) (ch : Cell) (p : Position) :
    (t.Play ch p).1.Is3x3 := by
  cases hc : t.CellAt p with
  | panicked => rw [t.Play_of_panicked ch p hc]; exact h3
  | error e => rw [t.Play_of_error ch p e hc]; exact h3
  | ok c =>
    by_cases hn : c = Cell.None
    · subst hn
      have hp := t.CellAt_ok_inRange h3 p _ hc
      rw [t.Play_of_empty h3 ch p hp hc]
      exact (t.withCell_spec h3 ch p hp).2.1
    · rw [t.Play_of_occupied ch p c hc hn]; exact h3

/-- Any call of `Play` leaves an occupied cell as it is. -/
theorem TicTacToe.Play_keeps_occupied (t : TicTacToe) (h3 : t.Is3x3) (ch : Cell) (p : Position)
    (q : Position) (c : Cell) (hq : t.CellAt q = Result.ok c) (hne : c ≠ Cell.None) :
    (t.Play ch p).1.CellAt q = Result.ok c := by
  cases hc : t.CellAt p with
  | panicked => rw [t.Play_of_panicked ch p hc]; exact hq
  | error e => rw [t.Play_of_error ch p e hc]; exact hq
  | ok c1 =>
    by_cases hn : c1 = Cell.None
    · subst hn
      have hp := t.CellAt_ok_inRange h3 p _ hc
      have hqr := t.CellAt_ok_inRange h3 q _ hq
      have hqp : q ≠ p := by
        rintro rfl
        rw [hq] at hc
        cases hc
        exact hne rfl
      rw [t.Play_of_empty h3 ch p hp hc, (t.withCell_spec h3 ch p hp).2.2.2.2 q hqr hqp]
      exact hq
    · rw [t.Play_of_occupied ch p c1 hc hn]; exact hq

/-- A move on a board without a winner can only make the mark just played win. -/
theorem TicTacToe.winner_after_move (t : TicTacToe) (h3 : t.Is3x3)
    (hw : t.DetectWin = Result.ok Cell.None) (m : Cell) (p : Position) (hp : p.InRange)
    (w : Cell) (h : (t.withCell p m).DetectWin = Result.ok w) : w = Cell.None ∨ w = m := by
  obtain ⟨-, h3n, -, hpm, hframe⟩ := t.withCell_spec h3 m p hp
  by_cases hwn : w = Cell.None
  · exact Or.inl hwn
  · right
    rw [(t.withCell p m).DetectWin_eq h3n] at h
    obtain ⟨l, hl, hlw⟩ := (t.withCell p m).firstLineWinner_mem w hwn (Result.ok.inj h)
    obtain ⟨-, h1, h2, h3l⟩ := ((t.withCell p m).lineWinner_eq_some_iff l w).mp hlw
    by_cases hin : l.Has p
    · rcases hin with rfl | rfl | rfl
      · rw [hpm] at h1; cases h1; rfl
      · rw [hpm] at h2; cases h2; rfl
      · rw [hpm] at h3l; cases h3l; rfl
    · exfalso
      have hn1 : l.1 ≠ p := fun e => hin (Or.inl e.symm)
      have hn2 : l.2.1 ≠ p := fun e => hin (Or.inr (Or.inl e.symm))
      have hn3 : l.2.2 ≠ p := fun e => hin (Or.inr (Or.inr e.symm))
      rw [hframe _ (theLines_inRange l hl _ (Or.inl rfl)) hn1] at h1
      rw [hframe _ (theLines_inRange l hl _ (Or.inr (Or.inl rfl))) hn2] at h2
      rw [hframe _ (theLines_inRange l hl _ (Or.inr (Or.inr rfl))) hn3] at h3l
      rw [t.DetectWin_eq h3] at hw
      have hnone := (t.firstLineWinner_eq_none_iff).mp (Result.ok.inj hw) l hl
      rw [(t.lineWinner_eq_some_iff l w).mpr ⟨hwn, h1, h2, h3l⟩] at hnone
      cases hnone

/-- Claim C1: on every 3x3 board `DetectWin` returns the mark of the first line, in the
enumeration order row 0, row 1, row 2, column 0, column 1, column 2, main diagonal,
anti-diagonal (`theLines`), whose three cells all hold the same mark other than `None`; it
returns `None` exactly when no line is won; and a board that holds one mark `m` on the
three cells of one of the eight lines and `None` on every other cell reports `m`. -/
theorem C1_DetectWin_first_complete_line (t : TicTacToe) (h3 : t.Is3x3) :
    t.DetectWin = Result.ok ((theLines.findSome? t.lineWinner).getD Cell.None) ∧
    (t.DetectWin = Result.ok Cell.None ↔ ∀ l ∈ theLines, t.lineWinner l = none) ∧
    (∀ l ∈ theLines, ∀ m : Cell, m ≠ Cell.None →
      (∀ p : Position, p.InRange →
        t.CellAt p = Result.ok (if l.Has p then m else Cell.None)) →
      t.DetectWin = Result.ok m) := by
  refine ⟨t.DetectWin_eq h3, ?_, ?_⟩
  · rw [t.DetectWin_eq h3, ← t.firstLineWinner_eq_none_iff]
    constructor
    · intro h; exact Result.ok.inj h
    · intro h; rw [h]
  · intro l hl m hm hcells
    rw [t.DetectWin_eq h3]
    have hline : t.lineWinner l = some m := by
      rw [t.lineWinner_eq_some_iff]
      refine ⟨hm, ?_, ?_, ?_⟩
      · rw [hcells _ (theLines_inRange l hl _ (Or.inl rfl)), if_pos (show l.Has l.1 from Or.inl rfl)]
      · rw [hcells _ (theLines_inRange l hl _ (Or.inr (Or.inl rfl))),
          if_pos (show l.Has l.2.1 from Or.inr (Or.inl rfl))]
      · rw [hcells _ (theLines_inRange l hl _ (Or.inr (Or.inr rfl))),
          if_pos (show l.Has l.2.2 from Or.inr (Or.inr rfl))]
    have hne : t.firstLineWinner ≠ Cell.None := by
      intro h0
      rw [(t.firstLineWinner_eq_none_iff).mp h0 l hl] at hline
      cases hline
    obtain ⟨l1, hl1, hw1⟩ := t.firstLineWinner_mem _ hne rfl
    obtain ⟨-, h1, -, -⟩ := (t.lineWinner_eq_some_iff l1 _).mp hw1
    rw [hcells _ (theLines_inRange l1 hl1 _ (Or.inl rfl))] at h1
    split at h1
    · exact h1.symm
    · exact absurd (Result.ok.inj h1).symm hne

/-- The anti-diagonal filled with `O` on an otherwise empty board is reported as won by `O`. -/
theorem C1_witness :
    (TicTacToe.mk [[Cell.None, Cell.None, Cell.O], [Cell.None, Cell.O, Cell.None],
        [Cell.O, Cell.None, Cell.None]] Cell.None).Is3x3 ∧
    (TicTacToe.mk [[Cell.None, Cell.None, Cell.O], [Cell.None, Cell.O, Cell.None],
        [Cell.O, Cell.None, Cell.None]] Cell.None).DetectWin = Result.ok Cell.O :=
  ⟨by decide,
    (C1_DetectWin_first_complete_line _ (by decide)).2.2
      (⟨2, 0⟩, ⟨1, 1⟩, ⟨0, 2⟩) (by decide) Cell.O (by decide) (by
        intro p hp
        rcases inRange_cases p hp with rfl | rfl | rfl | rfl | rfl | rfl | rfl | rfl | rfl <;>
          decide)⟩

/-- Claim C2: on every board, for every mark and every position `p` whose cell can be read
and is not `None`, `Play mark p` fails with the error "Cell already played" and returns the
board exactly as it was, so no cell has changed. -/
theorem C2_Play_occupied_cell_rejected (t : TicTacToe) (mark : Cell) (p : Position) (c : Cell)
    (hcell : t.CellAt p = Result.ok c) (hocc : c ≠ Cell.None) :
    t.Play mark p = (t, Result.error GameError.cellPlayed) :=
  t.Play_of_occupied mark p c hcell hocc

/-- Playing `X` onto the centre cell already held by `O` is rejected and the board is as
before. -/
theorem C2_witness :
    (TicTacToe.mk [[Cell.X, Cell.None, Cell.None], [Cell.None, Cell.O, Cell.None],
        [Cell.None, Cell.None, Cell.None]] Cell.None).Play Cell.X ⟨1, 1⟩ =
      (TicTacToe.mk [[Cell.X, Cell.None, Cell.None], [Cell.None, Cell.O, Cell.None],
        [Cell.None, Cell.None, Cell.None]] Cell.None, Result.error GameError.cellPlayed) :=
  C2_Play_occupied_cell_rejected _ Cell.X ⟨1, 1⟩ Cell.O (by decide) (by decide)

theorem TicTacToe.playAll_is3x3 (t : TicTacToe) (h3 : t.Is3x3) (moves : List (Cell × Position)) :
    (t.playAll moves).Is3x3 := by
  induction moves generalizing t with
  | nil => exact h3
  | cons mv rest ih => exact ih _ (t.Play_is3x3 h3 mv.1 mv.2)

theorem TicTacToe.playAll_keeps_occupied (t : TicTacToe) (h3 : t.Is3x3)
    (moves : List (Cell × Position)) (q : Position) (c : Cell)
    (hq : t.CellAt q = Result.ok c) (hne : c ≠ Cell.None) :
    (t.playAll moves).CellAt q = Result.ok c := by
  induction moves generalizing t with
  | nil => exact hq
  | cons mv rest ih =>
    exact ih _ (t.Play_is3x3 h3 mv.1 mv.2) (t.Play_keeps_occupied h3 mv.1 mv.2 q c hq hne)

/-- Claim C3: on every 3x3 board, for every mark and every in-range position `p` whose
cell is `None`, `Play mark p` succeeds, the cell at `p` then holds `mark`, the other eight
cells are as before, and the value returned is `DetectWin` of the updated board.  Hence,
along any sequence of `Play` calls with marks `X`/`O`, a cell that holds a mark other than
`None` after some prefix of the calls holds the same mark after every longer sequence. -/
theorem C3_Play_empty_cell (t : TicTacToe) (h3 : t.Is3x3) :
    (∀ (mark : Cell) (p : Position), p.InRange → t.CellAt p = Result.ok Cell.None →
      (∃ w, (t.Play mark p).2 = Result.ok w ∧ (t.Play mark p).1.DetectWin = Result.ok w) ∧
      (t.Play mark p).1.CellAt p = Result.ok mark ∧
      (∀ q : Position, q.InRange → q ≠ p → (t.Play mark p).1.CellAt q = t.CellAt q)) ∧
    (∀ (before after : List (Cell × Position)) (q : Position) (c : Cell),
      (∀ mv ∈ before ++ after, mv.1 = Cell.X ∨ mv.1 = Cell.O) →
      (t.playAll before).CellAt q = Result.ok c → c ≠ Cell.None →
      (t.playAll (before ++ after)).CellAt q = Result.ok c) := by
  constructor
  · intro mark p hp hempty
    obtain ⟨-, h3n, -, hpm, hframe⟩ := t.withCell_spec h3 mark p hp
    rw [t.Play_of_empty h3 mark p hp hempty]
    exact ⟨⟨_, (t.withCell p mark).DetectWin_eq h3n, (t.withCell p mark).DetectWin_eq h3n⟩,
      hpm, hframe⟩
  · intro before after q c _ hq hne
    have happ : t.playAll (before ++ after) = (t.playAll before).playAll after := by
      simp [TicTacToe.playAll, List.foldl_append]
    rw [happ]
    exact (t.playAll before).playAll_keeps_occupied (t.playAll_is3x3 h3 before) after q c hq hne

/-- On a fresh board `X` played at the centre stays there, also after two later calls. -/
theorem C3_witness :
    NewTicTacToe.Is3x3 ∧
    (NewTicTacToe.Play Cell.X ⟨1, 1⟩).1.CellAt ⟨1, 1⟩ = Result.ok Cell.X ∧
    (NewTicTacToe.playAll ([(Cell.X, ⟨1, 1⟩)] ++ [(Cell.O, ⟨1, 1⟩), (Cell.O, ⟨0, 0⟩)])).CellAt ⟨1, 1⟩
      = Result.ok Cell.X :=
  ⟨by decide,
    ((C3_Play_empty_cell NewTicTacToe (by decide)).1 Cell.X ⟨1, 1⟩ (by decide) (by decide)).2.1,
    (C3_Play_empty_cell NewTicTacToe (by decide)).2 [(Cell.X, ⟨1, 1⟩)]
      [(Cell.O, ⟨1, 1⟩), (Cell.O, ⟨0, 0⟩)] ⟨1, 1⟩ Cell.X (by decide) (by decide) (by decide)⟩
theorem list_set_same {α : Type} (xs : List α) (i : Nat) (v : α) (h : xs[i]? = some v) :
    xs.set i v = xs := by
  induction xs generalizing i with
  | nil => rfl
  | cons x rest ih =>
    cases i with
    | zero => simp at h; simp [h]
    | succ k => simp at h; simp [ih k h]

theorem Ultimate.storeGame_same (u : Ultimate) (p : Position) (g : TicTacToe)
    (h : u.GameAt p = some g) : u.storeGame p g = u := by
  unfold Ultimate.GameAt at h
  split at h
  · cases h
  · rename_i row hrow
    unfold goIndex at hrow h
    split at hrow
    · split at h
      · have hr : u.innerGames.getD p.Row.toNat [] = row := by simp [hrow]
        unfold Ultimate.storeGame
        rw [hr, list_set_same row _ g h, list_set_same _ _ row hrow]
      · cases h
    · cases hrow

theorem Ultimate.storeGame_spec (u : Ultimate) (hwf : u.WellFormed) (p : Position)
    (hp : p.InRange) (g1 : TicTacToe) (hg : g1.Is3x3) :
    (u.storeGame p g1).WellFormed ∧ (u.storeGame p g1).metaGame = u.metaGame ∧
      (u.storeGame p g1).GameAt p = some g1 ∧
      ∀ q : Position, q.InRange → q ≠ p → (u.storeGame p g1).GameAt q = u.GameAt q := by
  obtain ⟨games, mg⟩ := u
  obtain ⟨hshape, hall, hm⟩ := hwf
  obtain ⟨a, b, c, d, e, f, g, h, i, rfl⟩ := grid_3x3_shape games hshape
  simp only [List.mem_cons, List.mem_singleton, forall_eq_or_imp, forall_eq, List.not_mem_nil,
    IsEmpty.forall_iff, implies_true, and_true] at hall
  rcases inRange_cases p hp with rfl | rfl | rfl | rfl | rfl | rfl | rfl | rfl | rfl <;>
    refine ⟨⟨by simp [Ultimate.storeGame], by simp [Ultimate.storeGame]; tauto, hm⟩, rfl,
      by simp [Ultimate.storeGame, Ultimate.GameAt, goIndex], ?_⟩ <;>
    intro q hq hne <;>
    rcases inRange_cases q hq with rfl | rfl | rfl | rfl | rfl | rfl | rfl | rfl | rfl <;>
    simp [Ultimate.storeGame, Ultimate.GameAt, goIndex] at hne ⊢

theorem Ultimate.GameAt_of_inRange (u : Ultimate) (hwf : u.WellFormed) (p : Position)
    (hp : p.InRange) : ∃ g, u.GameAt p = some g ∧ g.Is3x3 := by
  obtain ⟨games, mg⟩ := u
  obtain ⟨hshape, hall, hm⟩ := hwf
  obtain ⟨a, b, c, d, e, f, g, h, i, rfl⟩ := grid_3x3_shape games hshape
  simp only [List.mem_cons, List.mem_singleton, forall_eq_or_imp, forall_eq, List.not_mem_nil,
    IsEmpty.forall_iff, implies_true, and_true] at hall
  rcases inRange_cases p hp with rfl | rfl | rfl | rfl | rfl | rfl | rfl | rfl | rfl <;>
    simp [Ultimate.GameAt, goIndex] <;> tauto
theorem TicTacToe.detectWinLoop_ne_error (t : TicTacToe)
    (conditions : List (Position × Position)) (e : GameError) :
    t.detectWinLoop conditions ≠ Result.error e := by
  induction conditions with
  | nil => simp [TicTacToe.detectWinLoop]
  | cons cd rest ih =>
    unfold TicTacToe.detectWinLoop TicTacToe.cellIgnoringError
    cases t.CellAt cd.1 <;> simp only <;>
      (try split) <;> (try exact ih) <;> (try simp) <;>
      cases t.CellAt (cd.1.Shift cd.2) <;> simp only <;>
      (try split) <;> (try exact ih) <;> (try simp) <;>
      cases t.CellAt ((cd.1.Shift cd.2).Shift cd.2) <;> simp only <;>
      (try split) <;> (try exact ih) <;> (try simp)

/-- A call of `Play` that returns an error has not touched the board. -/
theorem TicTacToe.Play_board_unchanged_of_error (t : TicTacToe) (ch : Cell) (p : Position)
    (e : GameError) (h : (t.Play ch p).2 = Result.error e) : (t.Play ch p).1 = t := by
  unfold TicTacToe.Play at h ⊢
  split
  · rfl
  · rfl
  · rename_i cell hcell
    rw [hcell] at h
    simp only at h
    split
    · rfl
    · rename_i hn
      rw [if_neg hn] at h
      split
      · rfl
      · rename_i t1 ht1
        rw [ht1] at h
        exact absurd h (t1.detectWinLoop_ne_error winConditions e)
/-- Claim C4: in every state, for every position `outer` whose meta-board cell can be read
and is not `None`, every inner position and every mark, `Ultimate.Play` fails with the error
"Outer game ... already won by ..." and changes nothing; the sub-board at `outer` is not
even looked at, so it does not matter whether it still has empty cells. -/
theorem C4_Play_decided_outer_rejected (u : Ultimate) (outer inner : Position) (mark c : Cell)
    (hmeta : u.metaGame.CellAt outer = Result.ok c) (hdecided : c ≠ Cell.None) :
    u.Play outer inner mark = (u, Result.error (GameError.outerWon outer c)) := by
  simp [Ultimate.Play, hmeta, hdecided]

/-- A call of `Ultimate.Play` that returns an error has not touched the state. -/
theorem Ultimate.Play_unchanged_of_error (u : Ultimate) (outer inner : Position) (mark : Cell)
    (e : GameError) (herr : (u.Play outer inner mark).2 = Result.error e) :
    (u.Play outer inner mark).1 = u := by
  unfold Ultimate.Play at herr ⊢
  split
  · rfl
  · rfl
  · rename_i metaCell hmeta
    rw [hmeta] at herr
    simp only at herr
    split
    · rfl
    · rename_i hn
      rw [if_neg hn] at herr
      split
      · rfl
      · rename_i game hgame
        rw [hgame] at herr
        simp only at herr ⊢
        split
        · rename_i hp
          rw [hp] at herr
          cases herr
        · rename_i e1 hp
          rw [game.Play_board_unchanged_of_error mark inner e1 hp]
          exact u.storeGame_same outer game hgame
        · rename_i winner hp
          rw [hp] at herr
          simp only at herr
          split
          · rename_i hw
            rw [if_pos hw] at herr
            split
            · rename_i hmp
              rw [hmp] at herr
              cases herr
            · rename_i hmp
              rw [hmp] at herr
              cases herr
            · rename_i mw hmp
              rw [hmp] at herr
              simp only at herr
              split at herr <;> cases herr
          · rename_i hw
            rw [if_neg hw] at herr
            cases herr

/-- Claim C9: whenever `Ultimate.Play` returns an error (meta-board position out of bounds,
sub-board already decided, or the error of the sub-board's own `Play`), the state after the
call is the state before it: no cell of any sub-board and no cell of the meta-board has
changed. -/
theorem C9_Play_error_leaves_state (u : Ultimate) (outer inner : Position) (mark : Cell)
    (e : GameError) (herr : (u.Play outer inner mark).2 = Result.error e) :
    (u.Play outer inner mark).1 = u :=
  u.Play_unchanged_of_error outer inner mark e herr

/-- What `Ultimate.Play` does on a well-formed state: either nothing is changed and no
value is returned, or the move lands on an empty cell of an undecided sub-board and the
meta-board is updated when the sub-board has a winner after the move. -/
theorem Ultimate.Play_cases (u : Ultimate) (hwf : u.WellFormed) (outer inner : Position)
    (cell : Cell) :
    ((u.Play outer inner cell).1 = u ∧ ∀ w, (u.Play outer inner cell).2 ≠ Result.ok w) ∨
    ∃ g, outer.InRange ∧ inner.InRange ∧ u.metaGame.CellAt outer = Result.ok Cell.None ∧
      u.GameAt outer = some g ∧ g.Is3x3 ∧ g.CellAt inner = Result.ok Cell.None ∧
      u.Play outer inner cell =
        if (g.withCell inner cell).firstLineWinner ≠ Cell.None then
          ({ innerGames := (u.storeGame outer (g.withCell inner cell)).innerGames,
             metaGame := u.metaGame.withCell outer cell },
           Result.ok (u.metaGame.withCell outer cell).firstLineWinner)
        else (u.storeGame outer (g.withCell inner cell), Result.ok Cell.None) := by
  cases hmeta : u.metaGame.CellAt outer with
  | panicked => left; simp [Ultimate.Play, hmeta]
  | error e => left; simp [Ultimate.Play, hmeta]
  | ok metaCell =>
    by_cases hmc : metaCell = Cell.None
    swap
    · left; simp [Ultimate.Play, hmeta, hmc]
    subst hmc
    have hout := u.metaGame.CellAt_ok_inRange hwf.2.2 outer _ hmeta
    obtain ⟨g, hg, hg3⟩ := u.GameAt_of_inRange hwf outer hout
    cases hcell : g.CellAt inner with
    | panicked =>
      left
      simp [Ultimate.Play, hmeta, hg, g.Play_of_panicked cell inner hcell,
        u.storeGame_same outer g hg]
    | error e =>
      left
      simp [Ultimate.Play, hmeta, hg, g.Play_of_error cell inner e hcell,
        u.storeGame_same outer g hg]
    | ok c =>
      by_cases hc : c = Cell.None
      swap
      · left
        simp [Ultimate.Play, hmeta, hg, g.Play_of_occupied cell inner c hcell hc,
          u.storeGame_same outer g hg]
      subst hc
      right
      have hin := g.CellAt_ok_inRange hg3 inner _ hcell
      obtain ⟨-, hg1, -, -, -⟩ := g.withCell_spec hg3 cell inner hin
      obtain ⟨-, hmg, -, -⟩ := u.storeGame_spec hwf outer hout (g.withCell inner cell) hg1
      obtain ⟨-, hm1, -, -, -⟩ := u.metaGame.withCell_spec hwf.2.2 cell outer hout
      refine ⟨g, hout, hin, rfl, hg, hg3, hcell, ?_⟩
      simp only [Ultimate.Play, hmeta, hg, g.Play_of_empty hg3 cell inner hin hcell,
        (g.withCell inner cell).DetectWin_eq hg1, hmg,
        u.metaGame.Play_of_empty hwf.2.2 cell outer hout hmeta,
        (u.metaGame.withCell outer cell).DetectWin_eq hm1]
      by_cases hw : (g.withCell inner cell).firstLineWinner = Cell.None
      · simp [hw]
      · simp only [ne_eq, hw, not_false_eq_true, if_true, not_true_eq_false, if_false]
        by_cases hmw : (u.metaGame.withCell outer cell).firstLineWinner = Cell.None
        · simp [hmw]
        · simp [hmw]
theorem Ultimate.Play_wellFormed (u : Ultimate) (hwf : u.WellFormed) (outer inner : Position)
    (cell : Cell) : (u.Play outer inner cell).1.WellFormed := by
  rcases u.Play_cases hwf outer inner cell with ⟨hsame, -⟩ | ⟨g, hout, hin, -, -, hg3, -, hplay⟩
  · rw [hsame]; exact hwf
  · obtain ⟨-, hg1, -, -, -⟩ := g.withCell_spec hg3 cell inner hin
    obtain ⟨hwf1, hmg, -, -⟩ := u.storeGame_spec hwf outer hout (g.withCell inner cell) hg1
    obtain ⟨-, hm1, -, -, -⟩ := u.metaGame.withCell_spec hwf.2.2 cell outer hout
    rw [hplay]
    split
    · exact ⟨hwf1.1, hwf1.2.1, hm1⟩
    · exact hwf1

theorem Ultimate.Play_mirrors (u : Ultimate) (hwf : u.WellFormed) (hmir : u.Mirrors)
    (outer inner : Position) (cell : Cell) : (u.Play outer inner cell).1.Mirrors := by
  rcases u.Play_cases hwf outer inner cell with
    ⟨hsame, -⟩ | ⟨g, hout, hin, hmeta, hg, hg3, -, hplay⟩
  · rw [hsame]; exact hmir
  · obtain ⟨-, hg1, -, -, -⟩ := g.withCell_spec hg3 cell inner hin
    obtain ⟨-, hmg, hsame, hother⟩ := u.storeGame_spec hwf outer hout (g.withCell inner cell) hg1
    obtain ⟨-, hm1, -, hmcell, hmframe⟩ := u.metaGame.withCell_spec hwf.2.2 cell outer hout
    have hbefore : g.DetectWin = Result.ok Cell.None := by
      obtain ⟨g0, c, hg0, hw0, hc0⟩ := hmir outer hout
      rw [hg] at hg0
      cases hg0
      rw [hw0]
      unfold Ultimate.CellAt at hc0
      rw [hmeta] at hc0
      exact hc0.symm
    rw [hplay]
    intro p hp
    by_cases hpo : p = outer
    · subst hpo
      refine ⟨g.withCell inner cell, (g.withCell inner cell).firstLineWinner, ?_,
        (g.withCell inner cell).DetectWin_eq hg1, ?_⟩
      · split <;> exact hsame
      · split
        · rename_i hw
          rcases g.winner_after_move hg3 hbefore cell inner hin _
            ((g.withCell inner cell).DetectWin_eq hg1) with h0 | h1
          · exact absurd h0 hw
          · rw [h1]; exact hmcell
        · rename_i hw
          rw [not_not.mp hw]
          show (u.storeGame p (g.withCell inner cell)).metaGame.CellAt p = _
          rw [hmg]; exact hmeta
    · obtain ⟨g0, c, hg0, hw0, hc0⟩ := hmir p hp
      refine ⟨g0, c, ?_, hw0, ?_⟩
      · split
        · exact (hother p hp hpo).trans hg0
        · exact (hother p hp hpo).trans hg0
      · split
        · show (u.metaGame.withCell outer cell).CellAt p = _
          rw [hmframe p hp hpo]; exact hc0
        · show (u.storeGame outer (g.withCell inner cell)).metaGame.CellAt p = _
          rw [hmg]; exact hc0

theorem NewUltimate_mirrors : NewUltimate.Mirrors := by
  intro p hp
  rcases inRange_cases p hp with rfl | rfl | rfl | rfl | rfl | rfl | rfl | rfl | rfl <;>
    exact ⟨NewTicTacToe, Cell.None, by decide, by decide, by decide⟩

theorem Ultimate.reachable_invariant (u : Ultimate) (h : u.Reachable) :
    u.WellFormed ∧ u.Mirrors := by
  induction h with
  | init => exact ⟨by decide, NewUltimate_mirrors⟩
  | play u outer inner cell _ _ ih =>
    exact ⟨u.Play_wellFormed ih.1 outer inner cell, u.Play_mirrors ih.1 ih.2 outer inner cell⟩

/-- Claim C6: in every state reachable from `NewUltimate` by any sequence of `Play` calls
with marks `X` or `O` (whatever the calls return), for every in-range position `p` the
meta-board cell at `p` equals `DetectWin` of the sub-board at `p`. -/
theorem C6_meta_cell_mirrors_sub_board (u : Ultimate) (hreach : u.Reachable) (p : Position)
    (hp : p.InRange) :
    ∃ g c, u.GameAt p = some g ∧ g.DetectWin = Result.ok c ∧ u.CellAt p = Result.ok c :=
  (Ultimate.reachable_invariant u hreach).2 p hp
/-- Claim C5 (as amended): for every well-formed state and every call
`Play outer inner mark`, (1) a meta-board cell that is not `None` before the call is
unchanged after it; (2) the meta-board cells at in-range positions other than `outer` are
unchanged; (3) if the meta-board cell at `outer` is `None` before the call, then after the
call it holds `mark` when the call succeeded and the sub-board at `outer` has a winner other
than `None` after the move, and it is still `None` otherwise; (4) in a state reachable from
`NewUltimate`, every successful call lands on a sub-board whose winner before the move is
`None`, so there the meta-board cell is set exactly when the sub-board's winner goes from
`None` to a mark. -/
theorem C5_meta_cell_set_once (u : Ultimate) (hwf : u.WellFormed) (outer inner : Position)
    (mark : Cell) :
    (∀ (q : Position) (c : Cell), u.metaGame.CellAt q = Result.ok c → c ≠ Cell.None →
      (u.Play outer inner mark).1.metaGame.CellAt q = Result.ok c) ∧
    (∀ q : Position, q.InRange → q ≠ outer →
      (u.Play outer inner mark).1.metaGame.CellAt q = u.metaGame.CellAt q) ∧
    (u.metaGame.CellAt outer = Result.ok Cell.None →
      (((∃ r, (u.Play outer inner mark).2 = Result.ok r) ∧
          (∃ g w, (u.Play outer inner mark).1.GameAt outer = some g ∧
            g.DetectWin = Result.ok w ∧ w ≠ Cell.None)) →
        (u.Play outer inner mark).1.metaGame.CellAt outer = Result.ok mark) ∧
      (¬ ((∃ r, (u.Play outer inner mark).2 = Result.ok r) ∧
          (∃ g w, (u.Play outer inner mark).1.GameAt outer = some g ∧
            g.DetectWin = Result.ok w ∧ w ≠ Cell.None)) →
        (u.Play outer inner mark).1.metaGame.CellAt outer = Result.ok Cell.None)) ∧
    (u.Reachable → (∃ r, (u.Play outer inner mark).2 = Result.ok r) →
      ∃ g, u.GameAt outer = some g ∧ g.DetectWin = Result.ok Cell.None) := by
  rcases u.Play_cases hwf outer inner mark with
    ⟨hsame, hno⟩ | ⟨g, hout, hin, hmeta, hg, hg3, -, hplay⟩
  · refine ⟨?_, ?_, ?_, ?_⟩
    · intro q c hq _; rw [hsame]; exact hq
    · intro q _ _; rw [hsame]
    · intro hmeta
      refine ⟨?_, ?_⟩
      · rintro ⟨⟨r, hr⟩, -⟩; exact absurd hr (hno r)
      · intro _; rw [hsame]; exact hmeta
    · rintro _ ⟨r, hr⟩; exact absurd hr (hno r)
  · obtain ⟨-, hg1, -, -, -⟩ := g.withCell_spec hg3 mark inner hin
    obtain ⟨-, hmg, hsame, -⟩ := u.storeGame_spec hwf outer hout (g.withCell inner mark) hg1
    obtain ⟨-, hm1, -, hmcell, hmframe⟩ := u.metaGame.withCell_spec hwf.2.2 mark outer hout
    have hdw := (g.withCell inner mark).DetectWin_eq hg1
    refine ⟨?_, ?_, ?_, ?_⟩
    · intro q c hq hc
      have hqr := u.metaGame.CellAt_ok_inRange hwf.2.2 q c hq
      have hqo : q ≠ outer := by
        rintro rfl
        rw [hmeta] at hq
        exact hc (Result.ok.inj hq).symm
      rw [hplay]
      split
      · show (u.metaGame.withCell outer mark).CellAt q = _
        rw [hmframe q hqr hqo]; exact hq
      · show (u.storeGame outer (g.withCell inner mark)).metaGame.CellAt q = _
        rw [hmg]; exact hq
    · intro q hqr hqo
      rw [hplay]
      split
      · exact hmframe q hqr hqo
      · show (u.storeGame outer (g.withCell inner mark)).metaGame.CellAt q = _
        rw [hmg]
    · intro _
      rw [hplay]
      by_cases hw : (g.withCell inner mark).firstLineWinner = Cell.None
      · rw [if_neg (not_not.mpr hw)]
        refine ⟨?_, ?_⟩
        · rintro ⟨-, g1, w, hg1a, hw1, hne⟩
          rw [hsame] at hg1a
          cases hg1a
          rw [hdw, hw] at hw1
          exact absurd (Result.ok.inj hw1).symm hne
        · intro _
          show (u.storeGame outer (g.withCell inner mark)).metaGame.CellAt outer = _
          rw [hmg]; exact hmeta
      · rw [if_pos hw]
        refine ⟨fun _ => hmcell, ?_⟩
        intro hcond
        exact absurd ⟨⟨_, rfl⟩, g.withCell inner mark, _, hsame, hdw, hw⟩ hcond
    · intro hreach _
      obtain ⟨g0, c, hg0, hw0, hc0⟩ := (Ultimate.reachable_invariant u hreach).2 outer hout
      refine ⟨g0, hg0, ?_⟩
      rw [hw0]
      unfold Ultimate.CellAt at hc0
      rw [hmeta] at hc0
      exact hc0.symm

/-- What a successful `Ultimate.Play` returns, relative to the meta-board after the call. -/
theorem Ultimate.Play_result_spec (u : Ultimate) (hwf : u.WellFormed)
    (outer inner : Position) (mark r : Cell)
    (hok : (u.Play outer inner mark).2 = Result.ok r) :
    (u.metaGame.DetectWin = Result.ok Cell.None →
      (u.Play outer inner mark).1.metaGame.DetectWin = Result.ok r) ∧
    ((∃ g w, (u.Play outer inner mark).1.GameAt outer = some g ∧
        g.DetectWin = Result.ok w ∧ w ≠ Cell.None) →
      (u.Play outer inner mark).1.metaGame.DetectWin = Result.ok r) ∧
    ((∃ g, (u.Play outer inner mark).1.GameAt outer = some g ∧
        g.DetectWin = Result.ok Cell.None) →
      r = Cell.None ∧ (u.Play outer inner mark).1.metaGame = u.metaGame) := by
  rcases u.Play_cases hwf outer inner mark with
    ⟨-, hno⟩ | ⟨g, hout, hin, hmeta, hg, hg3, -, hplay⟩
  · exact absurd hok (hno r)
  · obtain ⟨-, hg1, -, -, -⟩ := g.withCell_spec hg3 mark inner hin
    obtain ⟨-, hmg, hsame, -⟩ := u.storeGame_spec hwf outer hout (g.withCell inner mark) hg1
    obtain ⟨-, hm1, -, -, -⟩ := u.metaGame.withCell_spec hwf.2.2 mark outer hout
    have hdw := (g.withCell inner mark).DetectWin_eq hg1
    rw [hplay] at hok ⊢
    by_cases hw : (g.withCell inner mark).firstLineWinner = Cell.None
    · rw [if_neg (not_not.mpr hw)] at hok ⊢
      have hr : r = Cell.None := (Result.ok.inj hok).symm
      subst hr
      refine ⟨?_, ?_, ?_⟩
      · intro hbefore
        show (u.storeGame outer (g.withCell inner mark)).metaGame.DetectWin = _
        rw [hmg]; exact hbefore
      · rintro ⟨g1, w, hg1a, hw1, hne⟩
        rw [hsame] at hg1a
        cases hg1a
        rw [hdw, hw] at hw1
        exact absurd (Result.ok.inj hw1).symm hne
      · intro _
        exact ⟨rfl, hmg⟩
    · rw [if_pos hw] at hok ⊢
      have hr : (u.metaGame.withCell outer mark).firstLineWinner = r := Result.ok.inj hok
      subst hr
      have hafter := (u.metaGame.withCell outer mark).DetectWin_eq hm1
      refine ⟨fun _ => hafter, fun _ => hafter, ?_⟩
      rintro ⟨g1, hg1a, hw1⟩
      have hsome : some (g.withCell inner mark) = some g1 := hsame.symm.trans hg1a
      cases hsome
      rw [hdw] at hw1
      exact absurd (Result.ok.inj hw1) hw

/-- Claim C7 (as amended): for every well-formed state and every successful call
`Play outer inner mark` returning `r`: if the meta-board has no winner before the call, then
`r` is the meta-board's winner (`metaGame.DetectWin`) after the move; whatever the meta-board
showed before, `r` is the meta-board's winner after the move whenever the move leaves the
sub-board at `outer` with a winner, and otherwise `r` is `None` and the meta-board is
unchanged. -/
theorem C7_Play_returns_meta_winner (u : Ultimate) (hwf : u.WellFormed)
    (outer inner : Position) (mark r : Cell)
    (hok : (u.Play outer inner mark).2 = Result.ok r) :
    (u.metaGame.DetectWin = Result.ok Cell.None →
      (u.Play outer inner mark).1.metaGame.DetectWin = Result.ok r) ∧
    ((∃ g w, (u.Play outer inner mark).1.GameAt outer = some g ∧
        g.DetectWin = Result.ok w ∧ w ≠ Cell.None) →
      (u.Play outer inner mark).1.metaGame.DetectWin = Result.ok r) ∧
    ((∃ g, (u.Play outer inner mark).1.GameAt outer = some g ∧
        g.DetectWin = Result.ok Cell.None) →
      r = Cell.None ∧ (u.Play outer inner mark).1.metaGame = u.metaGame) :=
  Ultimate.Play_result_spec u hwf outer inner mark r hok
theorem Ultimate.playAll_reachable (u : Ultimate) (h : u.Reachable)
    (moves : List (Position × Position × Cell))
    (hmarks : ∀ mv ∈ moves, mv.2.2 = Cell.X ∨ mv.2.2 = Cell.O) :
    (u.playAll moves).Reachable := by
  induction moves generalizing u with
  | nil => exact h
  | cons mv rest ih =>
    exact ih _ (Ultimate.Reachable.play u mv.1 mv.2.1 mv.2.2 h (hmarks mv (by simp)))
      (fun mv1 hmem => hmarks mv1 (List.mem_cons_of_mem _ hmem))

/-- Claim C8 (as amended): in every state reachable from `NewUltimate` by `Play` calls
with marks `X`/`O` whose meta-board has no winner yet, for every mark `m` in `X`, `O`: if a
successful `Play outer inner m` leaves the three sub-boards along a line `l` of the grid
through `outer` all won by `m`, then that call returns `m`. -/
theorem C8_line_of_won_sub_boards_wins (u : Ultimate) (hreach : u.Reachable)
    (outer inner : Position) (m r : Cell) (hm : m = Cell.X ∨ m = Cell.O)
    (hundecided : u.metaGame.DetectWin = Result.ok Cell.None)
    (hok : (u.Play outer inner m).2 = Result.ok r)
    (l : Line3) (hl : l ∈ theLines) (hthrough : l.Has outer)
    (hline : ∀ q : Position, l.Has q →
      ∃ g, (u.Play outer inner m).1.GameAt q = some g ∧ g.DetectWin = Result.ok m) :
    r = m := by
  have hmne : m ≠ Cell.None := by rcases hm with rfl | rfl <;> decide
  obtain ⟨hwf, -⟩ := Ultimate.reachable_invariant u hreach
  have hafter := (Ultimate.reachable_invariant _
    (Ultimate.Reachable.play u outer inner m hreach hm)).2
  have hcell : ∀ q : Position, l.Has q →
      (u.Play outer inner m).1.metaGame.CellAt q = Result.ok m := by
    intro q hq
    obtain ⟨g, hg, hw⟩ := hline q hq
    obtain ⟨g1, c, hg1, hw1, hc1⟩ := hafter q (theLines_inRange l hl q hq)
    rw [hg] at hg1
    cases hg1
    rw [hw] at hw1
    cases hw1
    exact hc1
  have hcomplete : (u.Play outer inner m).1.metaGame.lineWinner l = some m :=
    ((u.Play outer inner m).1.metaGame.lineWinner_eq_some_iff l m).mpr
      ⟨hmne, hcell _ (Or.inl rfl), hcell _ (Or.inr (Or.inl rfl)), hcell _ (Or.inr (Or.inr rfl))⟩
  obtain ⟨g0, hg0, hw0⟩ := hline outer hthrough
  have hwon : ∃ g w, (u.Play outer inner m).1.GameAt outer = some g ∧
      g.DetectWin = Result.ok w ∧ w ≠ Cell.None := ⟨g0, m, hg0, hw0, hmne⟩
  have hret := (Ultimate.Play_result_spec u hwf outer inner m r hok).2.1 hwon
  rcases u.Play_cases hwf outer inner m with
    ⟨-, hno⟩ | ⟨g, hout, hin, hmeta, hg, hg3, -, hplay⟩
  · exact absurd hok (hno r)
  · obtain ⟨-, hm1, -, -, -⟩ := u.metaGame.withCell_spec hwf.2.2 m outer hout
    have hmetaAfter : (u.Play outer inner m).1.metaGame = u.metaGame.withCell outer m := by
      rw [hplay]
      split
      · rfl
      · rename_i hw
        exfalso
        rw [hplay, if_neg hw] at hg0
        obtain ⟨-, hg1, -, -, -⟩ := g.withCell_spec hg3 m inner hin
        obtain ⟨-, -, hsame, -⟩ := u.storeGame_spec hwf outer hout (g.withCell inner m) hg1
        have hsome : some (g.withCell inner m) = some g0 := hsame.symm.trans hg0
        cases hsome
        rw [(g.withCell inner m).DetectWin_eq hg1, not_not.mp hw] at hw0
        exact hmne (Result.ok.inj hw0).symm
    rw [hmetaAfter] at hret hcomplete
    rcases u.metaGame.winner_after_move hwf.2.2 hundecided m outer hout r hret with h0 | h1
    · exfalso
      subst h0
      rw [(u.metaGame.withCell outer m).DetectWin_eq hm1] at hret
      have hnone := ((u.metaGame.withCell outer m).firstLineWinner_eq_none_iff).mp
        (Result.ok.inj hret) l hl
      rw [hcomplete] at hnone
      cases hnone
    · exact h1
set_option maxRecDepth 100000

/-- After `X` has won the sub-board `(1,1)` by its top row, a move to its empty cell `(2,2)`
is rejected. -/
theorem C4_witness :
    (∃ g, (NewUltimate.playAll xWinsCentre).GameAt ⟨1, 1⟩ = some g ∧
      g.CellAt ⟨2, 2⟩ = Result.ok Cell.None) ∧
    (NewUltimate.playAll xWinsCentre).Play ⟨1, 1⟩ ⟨2, 2⟩ Cell.O =
      (NewUltimate.playAll xWinsCentre, Result.error (GameError.outerWon ⟨1, 1⟩ Cell.X)) :=
  ⟨⟨_, rfl, by decide⟩,
    C4_Play_decided_outer_rejected (NewUltimate.playAll xWinsCentre) ⟨1, 1⟩ ⟨2, 2⟩ Cell.O Cell.X
      (by decide) (by decide)⟩

/-- In a well-formed state whose sub-board `(1,2)` is already won by `O` while its meta-board
cell is `None`, a successful move of `X` there sets the meta-board cell to `X` although
the winner of the sub-board was `O` before the move and is `O` after it. -/
theorem C5_counterexample :
    handBuiltState.WellFormed ∧
    handBuiltState.metaGame.CellAt ⟨1, 2⟩ = Result.ok Cell.None ∧
    (handBuiltState.GameAt ⟨1, 2⟩).map TicTacToe.DetectWin = some (Result.ok Cell.O) ∧
    (handBuiltState.Play ⟨1, 2⟩ ⟨1, 1⟩ Cell.X).2 = Result.ok Cell.None ∧
    ((handBuiltState.Play ⟨1, 2⟩ ⟨1, 1⟩ Cell.X).1.GameAt ⟨1, 2⟩).map TicTacToe.DetectWin
      = some (Result.ok Cell.O) ∧
    (handBuiltState.Play ⟨1, 2⟩ ⟨1, 1⟩ Cell.X).1.metaGame.CellAt ⟨1, 2⟩ = Result.ok Cell.X := by
  decide

/-- The meta-board cell `(1,1)` won by `X` is untouched by a later move in sub-board `(0,0)`. -/
theorem C5_witness :
    (NewUltimate.playAll xWinsCentre).WellFormed ∧
    (NewUltimate.playAll xWinsCentre).metaGame.CellAt ⟨1, 1⟩ = Result.ok Cell.X ∧
    ((NewUltimate.playAll xWinsCentre).Play ⟨0, 0⟩ ⟨1, 1⟩ Cell.O).1.metaGame.CellAt ⟨1, 1⟩
      = Result.ok Cell.X :=
  ⟨by decide, by decide,
    (C5_meta_cell_set_once (NewUltimate.playAll xWinsCentre) (by decide) ⟨0, 0⟩ ⟨1, 1⟩ Cell.O).1
      ⟨1, 1⟩ Cell.X (by decide) (by decide)⟩

/-- After `X` has won the sub-board `(1,1)`, its meta-board cell shows its winner. -/
theorem C6_witness :
    ∃ g c, (NewUltimate.playAll xWinsCentre).GameAt ⟨1, 1⟩ = some g ∧
      g.DetectWin = Result.ok c ∧ (NewUltimate.playAll xWinsCentre).CellAt ⟨1, 1⟩ = Result.ok c :=
  C6_meta_cell_mirrors_sub_board (NewUltimate.playAll xWinsCentre)
    (Ultimate.playAll_reachable NewUltimate Ultimate.Reachable.init xWinsCentre (by decide))
    ⟨1, 1⟩ (by decide)

/-- After `X` has won the top row of sub-boards, a successful move of `O` in sub-board `(1,1)`
returns `None` while the meta-board after the move has winner `X`. -/
theorem C7_counterexample :
    (NewUltimate.playAll xWinsTopRow).Reachable ∧
    ((NewUltimate.playAll xWinsTopRow).Play ⟨1, 1⟩ ⟨0, 0⟩ Cell.O).2 = Result.ok Cell.None ∧
    ((NewUltimate.playAll xWinsTopRow).Play ⟨1, 1⟩ ⟨0, 0⟩ Cell.O).1.metaGame.DetectWin
      = Result.ok Cell.X :=
  ⟨Ultimate.playAll_reachable NewUltimate Ultimate.Reachable.init xWinsTopRow (by decide),
    by decide, by decide⟩

/-- The first move of a fresh game returns `None`, the winner of the meta-board after it. -/
theorem C7_witness :
    NewUltimate.WellFormed ∧
    (NewUltimate.Play ⟨0, 0⟩ ⟨1, 2⟩ Cell.X).2 = Result.ok Cell.None ∧
    (NewUltimate.Play ⟨0, 0⟩ ⟨1, 2⟩ Cell.X).1.metaGame.DetectWin = Result.ok Cell.None :=
  ⟨by decide, by decide,
    (C7_Play_returns_meta_winner NewUltimate (by decide) ⟨0, 0⟩ ⟨1, 2⟩ Cell.X Cell.None
      (by decide)).1 (by decide)⟩

/-- After `X` has won the top row of sub-boards, `O` wins the sub-board `(1,2)` and with it
the whole middle row, yet the call returns `X`. -/
theorem C8_counterexample :
    (NewUltimate.playAll (xWinsTopRow ++ oAlmostWinsMiddleRow)).Reachable ∧
    ((NewUltimate.playAll (xWinsTopRow ++ oAlmostWinsMiddleRow)).GameAt ⟨1, 2⟩).map
      TicTacToe.DetectWin = some (Result.ok Cell.None) ∧
    (∀ q ∈ [(⟨1, 0⟩ : Position), ⟨1, 1⟩, ⟨1, 2⟩],
      (((NewUltimate.playAll (xWinsTopRow ++ oAlmostWinsMiddleRow)).Play
        ⟨1, 2⟩ ⟨0, 2⟩ Cell.O).1.GameAt q).map TicTacToe.DetectWin = some (Result.ok Cell.O)) ∧
    ((NewUltimate.playAll (xWinsTopRow ++ oAlmostWinsMiddleRow)).Play ⟨1, 2⟩ ⟨0, 2⟩ Cell.O).2
      = Result.ok Cell.X :=
  ⟨Ultimate.playAll_reachable NewUltimate Ultimate.Reachable.init _ (by decide),
    by decide, by decide, by decide⟩

/-- A second move onto the same cell is rejected and leaves the state as it was. -/
theorem C9_witness :
    ((NewUltimate.Play ⟨0, 0⟩ ⟨1, 2⟩ Cell.X).1.Play ⟨0, 0⟩ ⟨1, 2⟩ Cell.O).2
      = Result.error GameError.cellPlayed ∧
    ((NewUltimate.Play ⟨0, 0⟩ ⟨1, 2⟩ Cell.X).1.Play ⟨0, 0⟩ ⟨1, 2⟩ Cell.O).1
      = (NewUltimate.Play ⟨0, 0⟩ ⟨1, 2⟩ Cell.X).1 :=
  ⟨by decide,
    C9_Play_error_leaves_state (NewUltimate.Play ⟨0, 0⟩ ⟨1, 2⟩ Cell.X).1 ⟨0, 0⟩ ⟨1, 2⟩ Cell.O
      GameError.cellPlayed (by decide)⟩
/-- The move of `X` that wins the sub-board `(0,2)` completes the top row and returns `X`. -/
theorem C8_witness :
    ((NewUltimate.playAll xAlmostWinsTopRow).Play ⟨0, 2⟩ ⟨0, 2⟩ Cell.X).2 = Result.ok Cell.X ∧
    Cell.X = Cell.X :=
  ⟨by decide,
    C8_line_of_won_sub_boards_wins (NewUltimate.playAll xAlmostWinsTopRow)
      (Ultimate.playAll_reachable NewUltimate Ultimate.Reachable.init _ (by decide))
      ⟨0, 2⟩ ⟨0, 2⟩ Cell.X Cell.X (Or.inl rfl) (by decide) (by decide)
      (⟨0, 0⟩, ⟨0, 1⟩, ⟨0, 2⟩) (by decide) (by decide)
      (by
        intro q hq
        rcases hq with rfl | rfl | rfl
        · exact ⟨_, rfl, by decide⟩
        · exact ⟨_, rfl, by decide⟩
        · exact ⟨_, rfl, by decide⟩)⟩

/-- The game of a session after one pass is the game before or the game after one `Play`
call with the mark of the current player, and the turn stays with `X` or `O`. -/
theorem UltimateRunner.readMove_invariant (s : UltimateRunner) (outer : Position)
    (input : List Line) (hgame : s.Game.Reachable)
    (hturn : s.CurrentTurn = Cell.X ∨ s.CurrentTurn = Cell.O) :
    (s.readMove outer input).runner.Game.Reachable ∧
    ((s.readMove outer input).runner.CurrentTurn = Cell.X ∨
      (s.readMove outer input).runner.CurrentTurn = Cell.O) := by
  have hplay : ∀ pos, (s.Game.Play outer pos s.CurrentTurn).1.Reachable :=
    fun pos => Ultimate.Reachable.play s.Game outer pos s.CurrentTurn hgame hturn
  unfold UltimateRunner.readMove
  split
  · exact ⟨hgame, hturn⟩
  · exact ⟨hgame, hturn⟩
  · exact ⟨hgame, hturn⟩
  · rename_i pos rest
    simp only
    split
    · exact ⟨hplay pos, hturn⟩
    · exact ⟨hplay pos, hturn⟩
    · split
      · exact ⟨hplay pos, hturn⟩
      · split
        · exact ⟨hplay pos, hturn⟩
        · split
          · exact ⟨hplay pos, hturn⟩
          · exact ⟨hplay pos, hturn⟩
          · refine ⟨?_, ?_⟩
            · split <;> split <;> exact hplay pos
            · split <;> split <;> simp

theorem UltimateRunner.reachable_session_invariant (s : UltimateRunner) (h : s.Reachable) :
    s.Game.Reachable ∧ (s.CurrentTurn = Cell.X ∨ s.CurrentTurn = Cell.O) := by
  induction h with
  | init => exact ⟨Ultimate.Reachable.init, Or.inr rfl⟩
  | step s input _ _ ih =>
    unfold UltimateRunner.RunIteration
    split
    · exact s.readMove_invariant _ _ ih.1 ih.2
    · split
      · exact ih
      · exact ih
      · exact ih
      · rename_i pos rest _
        exact UltimateRunner.readMove_invariant { s with GamePosition := some pos } pos rest
          ih.1 ih.2
/-- The second half of the loop body on an accepted move that does not end the game. -/
theorem UltimateRunner.readMove_accepted (s : UltimateRunner) (hgame : s.Game.Reachable)
    (hturn : s.CurrentTurn = Cell.X ∨ s.CurrentTurn = Cell.O)
    (outer inner : Position) (rest : List Line)
    (haccept : (s.Game.Play outer inner s.CurrentTurn).2 = Result.ok Cell.None) :
    (s.readMove outer (Line.position inner :: rest)).status = IterStatus.moved ∧
    (s.readMove outer (Line.position inner :: rest)).runner.Game
      = (s.Game.Play outer inner s.CurrentTurn).1 ∧
    (∃ c, (s.Game.Play outer inner s.CurrentTurn).1.CellAt inner = Result.ok c ∧
      (s.readMove outer (Line.position inner :: rest)).runner.GamePosition
        = if c ≠ Cell.None then none else some inner) ∧
    (s.readMove outer (Line.position inner :: rest)).runner.CurrentTurn
      = (if s.CurrentTurn = Cell.O then Cell.X else Cell.O) := by
  obtain ⟨hwf, -⟩ := Ultimate.reachable_invariant _ hgame
  have hafter := (Ultimate.reachable_invariant _
    (Ultimate.Reachable.play s.Game outer inner s.CurrentTurn hgame hturn)).2
  have hin : inner.InRange := by
    rcases s.Game.Play_cases hwf outer inner s.CurrentTurn with ⟨-, hno⟩ | ⟨g, -, hin, -⟩
    · exact absurd haccept (hno _)
    · exact hin
  obtain ⟨g, c, hg, hw, hc⟩ := hafter inner hin
  refine ⟨?_, ?_, ⟨c, hc, ?_⟩, ?_⟩ <;>
    simp only [UltimateRunner.readMove, haccept, hg, hw] <;>
    by_cases hcn : c = Cell.None <;> by_cases hto : s.CurrentTurn = Cell.O <;> simp [hcn, hto]
/-- Claim C10: for every session reachable from `NewRunner` and one pass through the loop
of `Run` that reads the move `(outer, inner)` (only `inner` when a forced board `outer` is
set, `outer` then `inner` when none is set): if `Play outer inner CurrentTurn` is accepted
and returns `None` as overall winner, the pass reaches the end of the loop body, the game is
the one after that `Play`, `GamePosition` becomes `inner` when the meta-board cell at
`inner` is `None` after the move and becomes absent when that cell holds a mark, and
`CurrentTurn` flips from `O` to `X` or from `X` to `O`. -/
theorem C10_forced_board_after_accepted_move (s : UltimateRunner) (hreach : s.Reachable)
    (outer inner : Position) (rest input : List Line)
    (hinput : (s.GamePosition = some outer ∧ input = Line.position inner :: rest) ∨
      (s.GamePosition = none ∧ input = Line.position outer :: Line.position inner :: rest))
    (haccept : (s.Game.Play outer inner s.CurrentTurn).2 = Result.ok Cell.None) :
    (s.RunIteration input).status = IterStatus.moved ∧
    (s.RunIteration input).runner.Game = (s.Game.Play outer inner s.CurrentTurn).1 ∧
    (∃ c, (s.RunIteration input).runner.Game.CellAt inner = Result.ok c) ∧
    ((s.RunIteration input).runner.Game.CellAt inner = Result.ok Cell.None →
      (s.RunIteration input).runner.GamePosition = some inner) ∧
    ((s.RunIteration input).runner.Game.CellAt inner ≠ Result.ok Cell.None →
      (s.RunIteration input).runner.GamePosition = none) ∧
    ((s.CurrentTurn = Cell.O ∧ (s.RunIteration input).runner.CurrentTurn = Cell.X) ∨
      (s.CurrentTurn = Cell.X ∧ (s.RunIteration input).runner.CurrentTurn = Cell.O)) := by
  obtain ⟨hgame, hturn⟩ := UltimateRunner.reachable_session_invariant s hreach
  have key : ∀ s1 : UltimateRunner, s1.Game = s.Game → s1.CurrentTurn = s.CurrentTurn →
      s.RunIteration input = s1.readMove outer (Line.position inner :: rest) →
      (s.RunIteration input).status = IterStatus.moved ∧
      (s.RunIteration input).runner.Game = (s.Game.Play outer inner s.CurrentTurn).1 ∧
      (∃ c, (s.RunIteration input).runner.Game.CellAt inner = Result.ok c) ∧
      ((s.RunIteration input).runner.Game.CellAt inner = Result.ok Cell.None →
        (s.RunIteration input).runner.GamePosition = some inner) ∧
      ((s.RunIteration input).runner.Game.CellAt inner ≠ Result.ok Cell.None →
        (s.RunIteration input).runner.GamePosition = none) ∧
      ((s.CurrentTurn = Cell.O ∧ (s.RunIteration input).runner.CurrentTurn = Cell.X) ∨
        (s.CurrentTurn = Cell.X ∧ (s.RunIteration input).runner.CurrentTurn = Cell.O)) := by
    intro s1 hg1 ht1 hrun
    have hgame1 : s1.Game.Reachable := by rw [hg1]; exact hgame
    have hturn1 : s1.CurrentTurn = Cell.X ∨ s1.CurrentTurn = Cell.O := by rw [ht1]; exact hturn
    have hacc1 : (s1.Game.Play outer inner s1.CurrentTurn).2 = Result.ok Cell.None := by
      rw [hg1, ht1]; exact haccept
    obtain ⟨hst, hgm, ⟨c, hc, hgp⟩, hct⟩ :=
      s1.readMove_accepted hgame1 hturn1 outer inner rest hacc1
    rw [hg1, ht1] at hgm hc
    rw [ht1] at hct
    rw [hrun, hgm]
    refine ⟨hst, rfl, ⟨c, hc⟩, ?_, ?_, ?_⟩
    · intro h0
      rw [hc] at h0
      rw [hgp, if_neg (not_not.mpr (Result.ok.inj h0))]
    · intro h0
      rw [hc] at h0
      have hcn : c ≠ Cell.None := fun e => h0 (by rw [e])
      rw [hgp, if_pos hcn]
    · rcases hturn with hx | ho
      · right
        refine ⟨hx, ?_⟩
        rw [hct, hx]
        rfl
      · left
        refine ⟨ho, ?_⟩
        rw [hct, if_pos ho]
  rcases hinput with ⟨hgp, rfl⟩ | ⟨hgp, rfl⟩
  · exact key s rfl rfl (by simp [UltimateRunner.RunIteration, hgp])
  · exact key { s with GamePosition := some outer } rfl rfl
      (by simp [UltimateRunner.RunIteration, hgp])

/-- From a fresh session, the move outer `(0,0)`, inner `(1,2)` forces the next move to sub-
board `(1,2)`. -/
theorem C10_witness :
    (NewRunner.Game.Play ⟨0, 0⟩ ⟨1, 2⟩ NewRunner.CurrentTurn).2 = Result.ok Cell.None ∧
    (NewRunner.RunIteration [Line.position ⟨0, 0⟩, Line.position ⟨1, 2⟩]).runner.GamePosition
      = some ⟨1, 2⟩ :=
  ⟨by decide,
    (C10_forced_board_after_accepted_move NewRunner UltimateRunner.Reachable.init
      ⟨0, 0⟩ ⟨1, 2⟩ [] [Line.position ⟨0, 0⟩, Line.position ⟨1, 2⟩]
      (Or.inr ⟨rfl, rfl⟩) (by decide)).2.2.2.1 (by decide)⟩

/-- A pass of the second half of the loop body that ends in `continue` leaves the session
as it was. -/
theorem UltimateRunner.readMove_rejected (s : UltimateRunner) (outer : Position)
    (input : List Line) (h : (s.readMove outer input).status = IterStatus.rejected) :
    (s.readMove outer input).runner = s := by
  unfold UltimateRunner.readMove at h ⊢
  split
  · rfl
  · rfl
  · rfl
  · rename_i pos rest
    simp only at h ⊢
    split
    · rename_i hp; rw [hp] at h; cases h
    · rename_i e hp
      rw [s.Game.Play_unchanged_of_error outer pos s.CurrentTurn e hp]
    · rename_i cell hp
      rw [hp] at h
      simp only at h
      exfalso
      split at h
      · cases h
      · split at h
        · cases h
        · split at h
          · cases h
          · cases h
          · cases h

/-- Claim C11, evaluated where the code departs from it: a fresh session has no forced
board; the lines `5,5` and `0,0` make `Play` return the out-of-bounds error, the pass ends
in `continue`, and yet `GamePosition` is now `(5,5)`, the board read from the first line.
From that session every further pass is rejected and leaves the session as it is, so the
choice can never be revised.  The same happens when the second line fails to parse:
after `0,0` and a malformed line `GamePosition` is `(0,0)`. -/
theorem C11_rejected_move_keeps_chosen_board :
    NewRunner.GamePosition = none ∧
    (NewRunner.Game.Play ⟨5, 5⟩ ⟨0, 0⟩ NewRunner.CurrentTurn).2
      = Result.error (GameError.outOfBounds ⟨5, 5⟩) ∧
    (NewRunner.RunIteration [Line.position ⟨5, 5⟩, Line.position ⟨0, 0⟩]).status
      = IterStatus.rejected ∧
    (NewRunner.RunIteration [Line.position ⟨5, 5⟩, Line.position ⟨0, 0⟩]).runner.GamePosition
      = some ⟨5, 5⟩ ∧
    (NewRunner.RunIteration [Line.position ⟨5, 5⟩, Line.position ⟨0, 0⟩]).runner
      = stuckSession ∧
    (∀ input : List Line, (stuckSession.RunIteration input).status = IterStatus.rejected ∧
      (stuckSession.RunIteration input).runner = stuckSession) ∧
    (NewRunner.RunIteration [Line.position ⟨0, 0⟩, Line.malformed]).status
      = IterStatus.rejected ∧
    (NewRunner.RunIteration [Line.position ⟨0, 0⟩, Line.malformed]).runner.GamePosition
      = some ⟨0, 0⟩ := by
  refine ⟨by decide, by decide, by decide, by decide, by decide, ?_, by decide, by decide⟩
  intro input
  have hplay : ∀ pos, stuckSession.Game.Play ⟨5, 5⟩ pos stuckSession.CurrentTurn
      = (stuckSession.Game, Result.error (GameError.outOfBounds ⟨5, 5⟩)) := by
    intro pos
    rfl
  match input with
  | [] => exact ⟨rfl, rfl⟩
  | Line.unreadable :: _ => exact ⟨rfl, rfl⟩
  | Line.malformed :: _ => exact ⟨rfl, rfl⟩
  | Line.position pos :: rest =>
    have hrun : stuckSession.RunIteration (Line.position pos :: rest)
        = stuckSession.readMove ⟨5, 5⟩ (Line.position pos :: rest) := rfl
    rw [hrun]
    simp only [UltimateRunner.readMove, hplay]
    exact ⟨trivial, trivial⟩

/-- What a rejected pass leaves behind: the game and the turn are as before; the forced
board is as before when one was set, and otherwise it is now the board read from the first
line, if that line could be read. -/
theorem UltimateRunner.RunIteration_rejected (s : UltimateRunner) (input : List Line)
    (h : (s.RunIteration input).status = IterStatus.rejected) :
    (s.RunIteration input).runner.Game = s.Game ∧
    (s.RunIteration input).runner.CurrentTurn = s.CurrentTurn ∧
    ((s.RunIteration input).runner.GamePosition = s.GamePosition ∨
      (s.GamePosition = none ∧ ∃ pos rest, input = Line.position pos :: rest ∧
        (s.RunIteration input).runner.GamePosition = some pos)) := by
  unfold UltimateRunner.RunIteration at h ⊢
  split
  · rename_i outer hgp
    rw [hgp] at h
    simp only at h
    rw [s.readMove_rejected outer input h]
    exact ⟨rfl, rfl, Or.inl rfl⟩
  · rename_i hgp
    rw [hgp] at h
    simp only at h
    split
    · exact ⟨rfl, rfl, Or.inl rfl⟩
    · exact ⟨rfl, rfl, Or.inl rfl⟩
    · exact ⟨rfl, rfl, Or.inl rfl⟩
    · rename_i pos rest
      simp only at h ⊢
      rw [UltimateRunner.readMove_rejected _ pos rest h]
      exact ⟨rfl, rfl, Or.inr ⟨hgp, pos, rest, rfl, rfl⟩⟩

/-- Any move into a full 3x3 sub-board is turned down by `Ultimate.Play` without a change
of state: it returns an error, or the cell read runs out of range and panics. -/
theorem Ultimate.Play_full_board (u : Ultimate) (P pos : Position) (cell : Cell)
    (g : TicTacToe) (hg : u.GameAt P = some g) (hg3 : g.Is3x3)
    (hfull : ∀ q : Position, q.InRange → ∃ c, g.CellAt q = Result.ok c ∧ c ≠ Cell.None) :
    (u.Play P pos cell).1 = u ∧ ∀ w, (u.Play P pos cell).2 ≠ Result.ok w := by
  cases hmeta : u.metaGame.CellAt P with
  | panicked => simp [Ultimate.Play, hmeta]
  | error e => simp [Ultimate.Play, hmeta]
  | ok metaCell =>
    by_cases hmc : metaCell = Cell.None
    swap
    · simp [Ultimate.Play, hmeta, hmc]
    subst hmc
    cases hcell : g.CellAt pos with
    | panicked =>
      simp [Ultimate.Play, hmeta, hg, g.Play_of_panicked cell pos hcell,
        u.storeGame_same P g hg]
    | error e =>
      simp [Ultimate.Play, hmeta, hg, g.Play_of_error cell pos e hcell,
        u.storeGame_same P g hg]
    | ok c =>
      obtain ⟨c1, hc1, hne⟩ := hfull pos (g.CellAt_ok_inRange hg3 pos c hcell)
      rw [hcell] at hc1
      cases hc1
      simp [Ultimate.Play, hmeta, hg, g.Play_of_occupied cell pos c hcell hne,
        u.storeGame_same P g hg]

/-- Claim C20: (1) after an accepted move with overall winner `None` whose inner position
addresses a sub-board that is then full (all nine cells hold a mark) and has `DetectWin` =
`None`, the pass reaches the end of the loop body and `GamePosition` is that sub-board, not
absent; (2) from every session whose forced board is such a sub-board, whatever the input,
one pass through the loop accepts nothing: it ends rejected (or in the index panic of an
out-of-range cell read) and `Game`, `CurrentTurn` and `GamePosition` are unchanged. -/
theorem C20_full_undecided_board_stalls :
    (∀ (s : UltimateRunner) (outer inner : Position) (rest input : List Line) (g : TicTacToe),
      ((s.GamePosition = some outer ∧ input = Line.position inner :: rest) ∨
        (s.GamePosition = none ∧
          input = Line.position outer :: Line.position inner :: rest)) →
      (s.Game.Play outer inner s.CurrentTurn).2 = Result.ok Cell.None →
      (s.Game.Play outer inner s.CurrentTurn).1.GameAt inner = some g →
      (∀ q : Position, q.InRange → ∃ c, g.CellAt q = Result.ok c ∧ c ≠ Cell.None) →
      g.DetectWin = Result.ok Cell.None →
      (s.RunIteration input).status = IterStatus.moved ∧
      (s.RunIteration input).runner.GamePosition = some inner) ∧
    (∀ (s : UltimateRunner) (P : Position) (g : TicTacToe) (input : List Line),
      s.GamePosition = some P → s.Game.GameAt P = some g → g.Is3x3 →
      (∀ q : Position, q.InRange → ∃ c, g.CellAt q = Result.ok c ∧ c ≠ Cell.None) →
      g.DetectWin = Result.ok Cell.None →
      (s.RunIteration input).runner = s ∧
      ((s.RunIteration input).status = IterStatus.rejected ∨
        (s.RunIteration input).status = IterStatus.panicked)) := by
  constructor
  · intro s outer inner rest input g hinput haccept hg _ hw
    rcases hinput with ⟨hgp, rfl⟩ | ⟨hgp, rfl⟩ <;>
      simp [UltimateRunner.RunIteration, UltimateRunner.readMove, hgp, haccept, hg, hw] <;>
      split <;> rfl
  · intro s P g input hgp hg hg3 hfull _
    have hrun : s.RunIteration input = s.readMove P input := by
      simp [UltimateRunner.RunIteration, hgp]
    rw [hrun]
    unfold UltimateRunner.readMove
    split
    · exact ⟨rfl, Or.inl rfl⟩
    · exact ⟨rfl, Or.inl rfl⟩
    · exact ⟨rfl, Or.inl rfl⟩
    · rename_i pos rest
      obtain ⟨hsame, hno⟩ := s.Game.Play_full_board P pos s.CurrentTurn g hg hg3 hfull
      simp only
      split
      · rw [hsame]; exact ⟨rfl, Or.inr rfl⟩
      · rw [hsame]; exact ⟨rfl, Or.inl rfl⟩
      · rename_i cell hp
        exact absurd hp (hno cell)

theorem drawnBoard_full (q : Position) (hq : q.InRange) :
    ∃ c, drawnBoard.CellAt q = Result.ok c ∧ c ≠ Cell.None := by
  rcases inRange_cases q hq with rfl | rfl | rfl | rfl | rfl | rfl | rfl | rfl | rfl <;>
    exact ⟨_, rfl, by decide⟩

/-- Playing into cell `(1,1)` sends the next player to the full, undecided sub-board `(1,1)`,
where a further move changes nothing. -/
theorem C20_witness :
    (drawnCentreSession.RunIteration [Line.position ⟨0, 0⟩, Line.position ⟨1, 1⟩]).status
      = IterStatus.moved ∧
    (drawnCentreSession.RunIteration
      [Line.position ⟨0, 0⟩, Line.position ⟨1, 1⟩]).runner.GamePosition = some ⟨1, 1⟩ ∧
    ((drawnCentreSession.RunIteration
        [Line.position ⟨0, 0⟩, Line.position ⟨1, 1⟩]).runner.RunIteration
        [Line.position ⟨2, 2⟩]).runner
      = (drawnCentreSession.RunIteration [Line.position ⟨0, 0⟩, Line.position ⟨1, 1⟩]).runner :=
  ⟨(C20_full_undecided_board_stalls.1 drawnCentreSession ⟨0, 0⟩ ⟨1, 1⟩ []
      [Line.position ⟨0, 0⟩, Line.position ⟨1, 1⟩] drawnBoard (Or.inr ⟨rfl, rfl⟩)
      (by decide) (by decide) drawnBoard_full (by decide)).1,
    (C20_full_undecided_board_stalls.1 drawnCentreSession ⟨0, 0⟩ ⟨1, 1⟩ []
      [Line.position ⟨0, 0⟩, Line.position ⟨1, 1⟩] drawnBoard (Or.inr ⟨rfl, rfl⟩)
      (by decide) (by decide) drawnBoard_full (by decide)).2,
    (C20_full_undecided_board_stalls.2
      (drawnCentreSession.RunIteration [Line.position ⟨0, 0⟩, Line.position ⟨1, 1⟩]).runner
      ⟨1, 1⟩ drawnBoard [Line.position ⟨2, 2⟩] (by decide) (by decide) (by decide)
      drawnBoard_full (by decide)).1⟩

/-- What `CellAt` does on a 3x3 board for every integer position: the cell for positions in
range, the out-of-bounds error only when the row exceeds 3 or (for a row in range) the
column exceeds 3, and an index-out-of-range panic for a row or column that is 3 or
negative. -/
theorem TicTacToe.CellAt_total_spec (t : TicTacToe) (h3 : t.Is3x3) (p : Position) :
    (p.InRange → ∃ c, t.CellAt p = Result.ok c) ∧
    ((3 < p.Row ∨ (0 ≤ p.Row ∧ p.Row ≤ 2 ∧ 3 < p.Col)) →
      t.CellAt p = Result.error (GameError.outOfBounds p)) ∧
    ((p.Row < 0 ∨ p.Row = 3 ∨ (0 ≤ p.Row ∧ p.Row ≤ 2 ∧ (p.Col < 0 ∨ p.Col = 3))) →
      t.CellAt p = Result.panicked) := by
  refine ⟨t.CellAt_ok_of_inRange h3 p, ?_, ?_⟩
  · obtain ⟨cells, w⟩ := t
    obtain ⟨a, b, c, d, e, f, g, h, i, rfl⟩ := grid_3x3_shape cells h3
    obtain ⟨r, k⟩ := p
    rintro (hr | ⟨h0, h2, hk⟩)
    · simp only at hr
      simp [TicTacToe.CellAt, hr]
    · simp only at h0 h2 hk
      interval_cases r <;> simp [TicTacToe.CellAt, goIndex, hk]
  · obtain ⟨cells, w⟩ := t
    obtain ⟨a, b, c, d, e, f, g, h, i, rfl⟩ := grid_3x3_shape cells h3
    obtain ⟨r, k⟩ := p
    rintro (hr | hr | ⟨h0, h2, hk⟩)
    · simp only at hr
      have hra : ¬ 3 < r := by omega
      have hrb : ¬ 0 ≤ r := by omega
      simp [TicTacToe.CellAt, goIndex, hra, hrb]
    · simp only at hr
      subst hr
      simp [TicTacToe.CellAt, goIndex]
    · simp only at h0 h2 hk
      rcases hk with hk | hk
      · have hka : ¬ 3 < k := by omega
        have hkb : ¬ 0 ≤ k := by omega
        interval_cases r <;> simp [TicTacToe.CellAt, goIndex, hka, hkb]
      · subst hk
        interval_cases r <;> simp [TicTacToe.CellAt, goIndex]

/-- Claim C13, evaluated where the code departs from it: on the fresh 3x3 board `CellAt`
panics (index out of range) for row 3, column 3, row -1 and column -1, and `Ultimate.CellAt`
does the same on the meta-board; the out-of-bounds error is returned only from 4 on; a
position in range returns its cell. -/
theorem C13_CellAt_crashes_at_three_and_negatives :
    NewTicTacToe.CellAt ⟨3, 0⟩ = Result.panicked ∧
    NewTicTacToe.CellAt ⟨0, 3⟩ = Result.panicked ∧
    NewTicTacToe.CellAt ⟨-1, 0⟩ = Result.panicked ∧
    NewTicTacToe.CellAt ⟨0, -1⟩ = Result.panicked ∧
    NewUltimate.CellAt ⟨3, 0⟩ = Result.panicked ∧
    NewUltimate.CellAt ⟨0, -1⟩ = Result.panicked ∧
    NewTicTacToe.CellAt ⟨4, 0⟩ = Result.error (GameError.outOfBounds ⟨4, 0⟩) ∧
    NewTicTacToe.CellAt ⟨0, 4⟩ = Result.error (GameError.outOfBounds ⟨0, 4⟩) ∧
    NewTicTacToe.CellAt ⟨2, 2⟩ = Result.ok Cell.None := by
  decide

/-- After a move on a board without a winner, every won line is won by the mark just
played. -/
theorem TicTacToe.lines_after_move (t : TicTacToe) (h3 : t.Is3x3)
    (hw : t.DetectWin = Result.ok Cell.None) (m : Cell) (p : Position) (hp : p.InRange)
    (l : Line3) (hl : l ∈ theLines) (w : Cell)
    (hlw : (t.withCell p m).lineWinner l = some w) : w = m := by
  obtain ⟨-, h3n, -, hpm, hframe⟩ := t.withCell_spec h3 m p hp
  obtain ⟨hwn, h1, h2, h3l⟩ := ((t.withCell p m).lineWinner_eq_some_iff l w).mp hlw
  by_cases hin : l.Has p
  · rcases hin with rfl | rfl | rfl
    · rw [hpm] at h1; cases h1; rfl
    · rw [hpm] at h2; cases h2; rfl
    · rw [hpm] at h3l; cases h3l; rfl
  · exfalso
    have hn1 : l.1 ≠ p := fun e => hin (Or.inl e.symm)
    have hn2 : l.2.1 ≠ p := fun e => hin (Or.inr (Or.inl e.symm))
    have hn3 : l.2.2 ≠ p := fun e => hin (Or.inr (Or.inr e.symm))
    rw [hframe _ (theLines_inRange l hl _ (Or.inl rfl)) hn1] at h1
    rw [hframe _ (theLines_inRange l hl _ (Or.inr (Or.inl rfl))) hn2] at h2
    rw [hframe _ (theLines_inRange l hl _ (Or.inr (Or.inr rfl))) hn3] at h3l
    rw [t.DetectWin_eq h3] at hw
    have hnone := (t.firstLineWinner_eq_none_iff).mp (Result.ok.inj hw) l hl
    rw [(t.lineWinner_eq_some_iff l w).mpr ⟨hwn, h1, h2, h3l⟩] at hnone
    cases hnone

/-- A successful `Play` landed on an empty cell in range. -/
theorem TicTacToe.Play_ok_inv (t : TicTacToe) (h3 : t.Is3x3) (ch : Cell) (p : Position)
    (w : Cell) (h : (t.Play ch p).2 = Result.ok w) :
    p.InRange ∧ t.CellAt p = Result.ok Cell.None := by
  cases hc : t.CellAt p with
  | panicked => rw [t.Play_of_panicked ch p hc] at h; cases h
  | error e => rw [t.Play_of_error ch p e hc] at h; cases h
  | ok c =>
    by_cases hn : c = Cell.None
    · subst hn
      exact ⟨t.CellAt_ok_inRange h3 p _ hc, rfl⟩
    · rw [t.Play_of_occupied ch p c hc hn] at h; cases h

/-- Claim C18: for every 3x3 board `b` with `DetectWin` = `None`, every mark `m` (in
particular `X` and `O`) and every position `p`: if `b.Play(m, p)` succeeds, the winner it
returns is `None` or `m`, and every line that is won on the board after the move is won
by `m`, so the enumeration order of the lines cannot change who is reported. -/
theorem C18_move_wins_only_for_its_mark (b : TicTacToe) (h3 : b.Is3x3)
    (hundecided : b.DetectWin = Result.ok Cell.None) (m : Cell) (p : Position) (w : Cell)
    (hplay : (b.Play m p).2 = Result.ok w) :
    (w = Cell.None ∨ w = m) ∧
    (∀ l ∈ theLines, ∀ w1, (b.Play m p).1.lineWinner l = some w1 → w1 = m) := by
  obtain ⟨hp, hempty⟩ := b.Play_ok_inv h3 m p w hplay
  rw [b.Play_of_empty h3 m p hp hempty] at hplay ⊢
  exact ⟨b.winner_after_move h3 hundecided m p hp w hplay,
    fun l hl w1 hlw => b.lines_after_move h3 hundecided m p hp l hl w1 hlw⟩

/-- Playing `X` onto the third cell of a row that holds two `X` returns `X`. -/
theorem C18_witness :
    (TicTacToe.mk [[Cell.X, Cell.X, Cell.None], [Cell.O, Cell.O, Cell.None],
        [Cell.None, Cell.None, Cell.None]] Cell.None).DetectWin = Result.ok Cell.None ∧
    ((TicTacToe.mk [[Cell.X, Cell.X, Cell.None], [Cell.O, Cell.O, Cell.None],
        [Cell.None, Cell.None, Cell.None]] Cell.None).Play Cell.X ⟨0, 2⟩).2
      = Result.ok Cell.X ∧
    (Cell.X = Cell.None ∨ Cell.X = Cell.X) :=
  ⟨by decide, by decide,
    (C18_move_wins_only_for_its_mark
      (TicTacToe.mk [[Cell.X, Cell.X, Cell.None], [Cell.O, Cell.O, Cell.None],
        [Cell.None, Cell.None, Cell.None]] Cell.None)
      (by decide) (by decide) Cell.X ⟨0, 2⟩ Cell.X (by decide)).1⟩

/-- A `Play` onto a cell that reads as empty never returns an error. -/
theorem TicTacToe.Play_empty_not_error (t : TicTacToe) (ch : Cell) (p : Position)
    (h : t.CellAt p = Result.ok Cell.None) (e : GameError) :
    (t.Play ch p).2 ≠ Result.error e := by
  unfold TicTacToe.Play
  rw [h]
  simp only [ne_eq, not_true_eq_false, if_false]
  split
  · simp
  · rename_i t1 _
    exact t1.detectWinLoop_ne_error winConditions e

/-- Claim C19: in every state, when step 1 of `Ultimate.Play` has read `None` from the
meta-board cell at `outer` and the move on the sub-board at `outer` succeeded with a winner
other than `None`, the meta-board is still the one step 1 looked at, the following
`metaGame.Play(mark, outer)` never returns an error, so the branch with
`panic("Precondition failed...")` is not taken, and on a 3x3 meta-board that call succeeds
and its value is what `Ultimate.Play` returns. -/
theorem C19_precondition_panic_unreachable (u : Ultimate) (outer inner : Position)
    (mark : Cell) (g : TicTacToe) (w : Cell)
    (hmeta : u.metaGame.CellAt outer = Result.ok Cell.None)
    (hg : u.GameAt outer = some g)
    (hsub : (g.Play mark inner).2 = Result.ok w) (hwon : w ≠ Cell.None) :
    (u.storeGame outer (g.Play mark inner).1).metaGame = u.metaGame ∧
    (∀ e, ((u.storeGame outer (g.Play mark inner).1).metaGame.Play mark outer).2
      ≠ Result.error e) ∧
    (u.metaGame.Is3x3 →
      ∃ mw, ((u.storeGame outer (g.Play mark inner).1).metaGame.Play mark outer).2
        = Result.ok mw ∧
      (u.Play outer inner mark).2 = Result.ok mw) := by
  refine ⟨rfl, fun e => u.metaGame.Play_empty_not_error mark outer hmeta e, ?_⟩
  intro hm3
  have hout := u.metaGame.CellAt_ok_inRange hm3 outer _ hmeta
  obtain ⟨-, hm1, -, -, -⟩ := u.metaGame.withCell_spec hm3 mark outer hout
  have hmp : (u.storeGame outer (g.Play mark inner).1).metaGame.Play mark outer
      = (u.metaGame.withCell outer mark, Result.ok (u.metaGame.withCell outer mark).firstLineWinner) := by
    show u.metaGame.Play mark outer = _
    rw [u.metaGame.Play_of_empty hm3 mark outer hout hmeta,
      (u.metaGame.withCell outer mark).DetectWin_eq hm1]
  refine ⟨_, by rw [hmp], ?_⟩
  simp only [Ultimate.Play, hmeta, hg, hsub, hmp]
  by_cases hmw : (u.metaGame.withCell outer mark).firstLineWinner = Cell.None
  · simp [hwon, hmw]
  · simp [hwon, hmw]

/-- When `X` wins the sub-board `(1,1)` with its third move, the move on the meta-board does
not return an error. -/
theorem C19_witness :
    ((NewUltimate.playAll [(⟨1, 1⟩, ⟨0, 0⟩, Cell.X), (⟨1, 1⟩, ⟨0, 1⟩, Cell.X)]).Play
      ⟨1, 1⟩ ⟨0, 2⟩ Cell.X).2 = Result.ok Cell.None ∧
    ∀ e, (((NewUltimate.playAll [(⟨1, 1⟩, ⟨0, 0⟩, Cell.X), (⟨1, 1⟩, ⟨0, 1⟩, Cell.X)]).storeGame
      ⟨1, 1⟩ ((TicTacToe.mk [[Cell.X, Cell.X, Cell.None],
        [Cell.None, Cell.None, Cell.None], [Cell.None, Cell.None, Cell.None]] Cell.None).Play
          Cell.X ⟨0, 2⟩).1).metaGame.Play Cell.X ⟨1, 1⟩).2 ≠ Result.error e :=
  ⟨by decide,
    (C19_precondition_panic_unreachable
      (NewUltimate.playAll [(⟨1, 1⟩, ⟨0, 0⟩, Cell.X), (⟨1, 1⟩, ⟨0, 1⟩, Cell.X)])
      ⟨1, 1⟩ ⟨0, 2⟩ Cell.X
      (TicTacToe.mk [[Cell.X, Cell.X, Cell.None],
        [Cell.None, Cell.None, Cell.None], [Cell.None, Cell.None, Cell.None]] Cell.None)
      Cell.X (by decide) (by decide) (by decide) (by decide)).2.1⟩

theorem Cell.isSpace_toRune (c : Cell) : isSpace c.toRune = false := by
  cases c <;> decide

theorem Cell.toRune_ne_newline (c : Cell) : ¬ c.toRune = '\n' := by
  cases c <;> decide

theorem runeCell_toRune (c : Cell) : runeCell c.toRune = some c := by
  cases c <;> decide

theorem markOf_toRune (c : Cell) : markOf c.toRune = c := by
  cases c <;> decide

theorem runeCell_of_boardRune (ch : Char) (h : IsBoardRune ch) :
    runeCell ch = some (markOf ch) ∧ (markOf ch).toRune = ch := by
  rcases h with rfl | rfl | rfl <;> decide

theorem runeCell_of_not_boardRune (ch : Char) (h : ¬ IsBoardRune ch) : runeCell ch = none := by
  unfold IsBoardRune at h
  simp only [not_or] at h
  simp [runeCell, h.1, h.2.1, h.2.2]

/-- One row of `ParseGame`: the first three characters are read in order and reading
stops with an error at the first one that is not a board character. -/
theorem parseColumns_three (game : TicTacToe) (h3 : game.Is3x3) (row : Int)
    (hrow : 0 ≤ row ∧ row ≤ 2) (a b c : Char) (extra : List Char) :
    parseColumns game (a :: b :: c :: extra) row [0, 1, 2] =
      if IsBoardRune a ∧ IsBoardRune b ∧ IsBoardRune c then
        Result.ok (((game.withCell ⟨row, 0⟩ (markOf a)).withCell ⟨row, 1⟩ (markOf b)).withCell
          ⟨row, 2⟩ (markOf c))
      else Result.error GameError.invalidCharacter := by
  have hr0 : Position.InRange ⟨row, 0⟩ := ⟨hrow.1, hrow.2, by simp, by simp⟩
  have hr1 : Position.InRange ⟨row, 1⟩ := ⟨hrow.1, hrow.2, by simp, by simp⟩
  have hr2 : Position.InRange ⟨row, 2⟩ := ⟨hrow.1, hrow.2, by simp, by simp⟩
  obtain ⟨hs0, h31, -⟩ := game.withCell_spec h3 (markOf a) ⟨row, 0⟩ hr0
  obtain ⟨hs1, h32, -⟩ := (game.withCell ⟨row, 0⟩ (markOf a)).withCell_spec h31 (markOf b)
    ⟨row, 1⟩ hr1
  obtain ⟨hs2, -, -⟩ := ((game.withCell ⟨row, 0⟩ (markOf a)).withCell ⟨row, 1⟩
    (markOf b)).withCell_spec h32 (markOf c) ⟨row, 2⟩ hr2
  by_cases ha : IsBoardRune a
  swap
  · simp [parseColumns, goIndex, runeCell_of_not_boardRune a ha, ha]
  by_cases hb : IsBoardRune b
  swap
  · simp [parseColumns, goIndex, (runeCell_of_boardRune a ha).1, hs0,
      runeCell_of_not_boardRune b hb, hb]
  by_cases hc : IsBoardRune c
  swap
  · simp [parseColumns, goIndex, (runeCell_of_boardRune a ha).1, hs0,
      (runeCell_of_boardRune b hb).1, hs1, runeCell_of_not_boardRune c hc, hc]
  simp [parseColumns, goIndex, (runeCell_of_boardRune a ha).1, hs0,
    (runeCell_of_boardRune b hb).1, hs1, (runeCell_of_boardRune c hc).1, hs2, ha, hb, hc]

theorem TicTacToe.withCell_three_is3x3 (game : TicTacToe) (h3 : game.Is3x3) (row : Int)
    (hrow : 0 ≤ row ∧ row ≤ 2) (x y z : Cell) :
    (((game.withCell ⟨row, 0⟩ x).withCell ⟨row, 1⟩ y).withCell ⟨row, 2⟩ z).Is3x3 := by
  have hr0 : Position.InRange ⟨row, 0⟩ := ⟨hrow.1, hrow.2, by simp, by simp⟩
  have hr1 : Position.InRange ⟨row, 1⟩ := ⟨hrow.1, hrow.2, by simp, by simp⟩
  have hr2 : Position.InRange ⟨row, 2⟩ := ⟨hrow.1, hrow.2, by simp, by simp⟩
  obtain ⟨-, h31, -⟩ := game.withCell_spec h3 x ⟨row, 0⟩ hr0
  obtain ⟨-, h32, -⟩ := (game.withCell ⟨row, 0⟩ x).withCell_spec h31 y ⟨row, 1⟩ hr1
  exact (((game.withCell ⟨row, 0⟩ x).withCell ⟨row, 1⟩ y).withCell_spec h32 z ⟨row, 2⟩ hr2).2.1

/-- What `ParseGame` does with a text of at least three rows whose first three rows have
at least three characters after trimming: only the first three characters of the first
three rows are read. -/
theorem ParseGame_of_rows (s r0 r1 r2 : List Char) (more : List (List Char))
    (a0 b0 c0 a1 b1 c1 a2 b2 c2 : Char) (e0 e1 e2 : List Char)
    (hsplit : Split (TrimSpace s) '\n' = r0 :: r1 :: r2 :: more)
    (h0 : TrimSpace r0 = a0 :: b0 :: c0 :: e0) (h1 : TrimSpace r1 = a1 :: b1 :: c1 :: e1)
    (h2 : TrimSpace r2 = a2 :: b2 :: c2 :: e2) :
    ((∀ ch ∈ [a0, b0, c0, a1, b1, c1, a2, b2, c2], IsBoardRune ch) →
      ParseGame s = Result.ok
        { Cells := [[markOf a0, markOf b0, markOf c0], [markOf a1, markOf b1, markOf c1],
                    [markOf a2, markOf b2, markOf c2]],
          WonBy := Cell.None }) ∧
    ((∃ ch ∈ [a0, b0, c0, a1, b1, c1, a2, b2, c2], ¬ IsBoardRune ch) →
      ParseGame s = Result.error GameError.invalidCharacter) := by
  have hg0 : NewTicTacToe.Is3x3 := by decide
  have hg1 := NewTicTacToe.withCell_three_is3x3 hg0 0 (by decide) (markOf a0) (markOf b0)
    (markOf c0)
  have hg2 := TicTacToe.withCell_three_is3x3 _ hg1 1 (by decide) (markOf a1) (markOf b1)
    (markOf c1)
  have hparse : ParseGame s =
      if IsBoardRune a0 ∧ IsBoardRune b0 ∧ IsBoardRune c0 then
        if IsBoardRune a1 ∧ IsBoardRune b1 ∧ IsBoardRune c1 then
          if IsBoardRune a2 ∧ IsBoardRune b2 ∧ IsBoardRune c2 then
            Result.ok
              { Cells := [[markOf a0, markOf b0, markOf c0], [markOf a1, markOf b1, markOf c1],
                          [markOf a2, markOf b2, markOf c2]],
                WonBy := Cell.None }
          else Result.error GameError.invalidCharacter
        else Result.error GameError.invalidCharacter
      else Result.error GameError.invalidCharacter := by
    have hi0 : goIndex (r0 :: r1 :: r2 :: more) 0 = some r0 := by simp [goIndex]
    have hi1 : goIndex (r0 :: r1 :: r2 :: more) 1 = some r1 := by simp [goIndex]
    have hi2 : goIndex (r0 :: r1 :: r2 :: more) 2 = some r2 := by simp [goIndex]
    simp only [ParseGame, hsplit, parseRows, hi0, hi1, hi2, h0, h1, h2]
    rw [parseColumns_three NewTicTacToe hg0 0 (by decide)]
    by_cases hv0 : IsBoardRune a0 ∧ IsBoardRune b0 ∧ IsBoardRune c0
    swap
    · simp only [if_neg hv0]
    simp only [if_pos hv0]
    rw [parseColumns_three _ hg1 1 (by decide)]
    by_cases hv1 : IsBoardRune a1 ∧ IsBoardRune b1 ∧ IsBoardRune c1
    swap
    · simp only [if_neg hv1]
    simp only [if_pos hv1]
    rw [parseColumns_three _ hg2 2 (by decide)]
    by_cases hv2 : IsBoardRune a2 ∧ IsBoardRune b2 ∧ IsBoardRune c2
    swap
    · simp only [if_neg hv2]
    simp only [if_pos hv2]
    rfl
  rw [hparse]
  constructor
  · intro hall
    simp only [List.mem_cons, List.mem_singleton, forall_eq_or_imp, forall_eq,
      List.not_mem_nil, IsEmpty.forall_iff, implies_true, and_true] at hall
    obtain ⟨v0, v1, v2, v3, v4, v5, v6, v7, v8⟩ := hall
    rw [if_pos ⟨v0, v1, v2⟩, if_pos ⟨v3, v4, v5⟩, if_pos ⟨v6, v7, v8⟩]
  · rintro ⟨ch, hmem, hbad⟩
    simp only [List.mem_cons, List.mem_singleton, List.not_mem_nil, or_false] at hmem
    split
    · split
      · split
        · rename_i hv0 hv1 hv2
          exfalso
          rcases hmem with rfl | rfl | rfl | rfl | rfl | rfl | rfl | rfl | rfl
          · exact hbad hv0.1
          · exact hbad hv0.2.1
          · exact hbad hv0.2.2
          · exact hbad hv1.1
          · exact hbad hv1.2.1
          · exact hbad hv1.2.2
          · exact hbad hv2.1
          · exact hbad hv2.2.1
          · exact hbad hv2.2.2
        · rfl
      · rfl
    · rfl

theorem Cell.isBoardRune_toRune (c : Cell) : IsBoardRune c.toRune := by
  cases c <;> decide

/-- The text `String` builds for a 3x3 board: the runes of the three rows, separated by
line feeds. -/
theorem TicTacToe.String_of_cells (x0 y0 z0 x1 y1 z1 x2 y2 z2 w : Cell) :
    (TicTacToe.mk [[x0, y0, z0], [x1, y1, z1], [x2, y2, z2]] w).String =
      Result.ok [x0.toRune, y0.toRune, z0.toRune, '\n', x1.toRune, y1.toRune, z1.toRune, '\n',
        x2.toRune, y2.toRune, z2.toRune] := by
  simp [TicTacToe.String, TicTacToe.stringRows, TicTacToe.stringColumns, goIndex]

theorem TrimSpace_three (a b c : Char) (ha : isSpace a = false) (hc : isSpace c = false) :
    TrimSpace [a, b, c] = [a, b, c] := by
  simp [TrimSpace, List.dropWhile, ha, hc]

theorem TrimSpace_eleven (a b c d e f g h i j k : Char) (ha : isSpace a = false)
    (hk : isSpace k = false) :
    TrimSpace [a, b, c, d, e, f, g, h, i, j, k] = [a, b, c, d, e, f, g, h, i, j, k] := by
  simp [TrimSpace, List.dropWhile, ha, hk]

theorem Split_three_rows (a0 b0 c0 a1 b1 c1 a2 b2 c2 : Char)
    (h : ∀ ch ∈ [a0, b0, c0, a1, b1, c1, a2, b2, c2], ¬ ch = '\n') :
    Split [a0, b0, c0, '\n', a1, b1, c1, '\n', a2, b2, c2] '\n' =
      [[a0, b0, c0], [a1, b1, c1], [a2, b2, c2]] := by
  simp only [List.mem_cons, List.mem_singleton, forall_eq_or_imp, forall_eq,
    List.not_mem_nil, IsEmpty.forall_iff, implies_true, and_true] at h
  obtain ⟨v0, v1, v2, v3, v4, v5, v6, v7, v8⟩ := h
  simp [Split, v0, v1, v2, v3, v4, v5, v6, v7, v8]

/-- Claim C14: for every 3x3 board `b` with `WonBy = None`, `b.String()` returns a text
`s` and `ParseGame(s)` succeeds with a board equal to `b` (same cells, same `WonBy`). -/
theorem C14_String_ParseGame_round_trip (b : TicTacToe) (h3 : b.Is3x3)
    (hwon : b.WonBy = Cell.None) :
    ∃ s, b.String = Result.ok s ∧ ParseGame s = Result.ok b := by
  obtain ⟨cells, w⟩ := b
  obtain ⟨x0, y0, z0, x1, y1, z1, x2, y2, z2, rfl⟩ := grid_3x3_shape cells h3
  simp only at hwon
  subst hwon
  refine ⟨_, TicTacToe.String_of_cells x0 y0 z0 x1 y1 z1 x2 y2 z2 Cell.None, ?_⟩
  have hparse := (ParseGame_of_rows
    [x0.toRune, y0.toRune, z0.toRune, '\n', x1.toRune, y1.toRune, z1.toRune, '\n',
      x2.toRune, y2.toRune, z2.toRune]
    [x0.toRune, y0.toRune, z0.toRune] [x1.toRune, y1.toRune, z1.toRune]
    [x2.toRune, y2.toRune, z2.toRune] []
    x0.toRune y0.toRune z0.toRune x1.toRune y1.toRune z1.toRune x2.toRune y2.toRune z2.toRune
    [] [] []
    (by
      rw [TrimSpace_eleven _ _ _ _ _ _ _ _ _ _ _ x0.isSpace_toRune z2.isSpace_toRune]
      apply Split_three_rows
      intro ch hch
      simp only [List.mem_cons, List.mem_singleton, List.not_mem_nil, or_false] at hch
      rcases hch with rfl | rfl | rfl | rfl | rfl | rfl | rfl | rfl | rfl <;>
        exact Cell.toRune_ne_newline _)
    (TrimSpace_three _ _ _ x0.isSpace_toRune z0.isSpace_toRune)
    (TrimSpace_three _ _ _ x1.isSpace_toRune z1.isSpace_toRune)
    (TrimSpace_three _ _ _ x2.isSpace_toRune z2.isSpace_toRune)).1
    (by
      intro ch hch
      simp only [List.mem_cons, List.mem_singleton, List.not_mem_nil, or_false] at hch
      rcases hch with rfl | rfl | rfl | rfl | rfl | rfl | rfl | rfl | rfl <;>
        exact Cell.isBoardRune_toRune _)
  rw [hparse]
  simp only [markOf_toRune]

/-- The board of `TestParseGame` survives `String` followed by `ParseGame`. -/
theorem C14_witness :
    (TicTacToe.mk [[Cell.X, Cell.O, Cell.None], [Cell.None, Cell.O, Cell.None],
        [Cell.X, Cell.O, Cell.None]] Cell.None).Is3x3 ∧
    ∃ s, (TicTacToe.mk [[Cell.X, Cell.O, Cell.None], [Cell.None, Cell.O, Cell.None],
        [Cell.X, Cell.O, Cell.None]] Cell.None).String = Result.ok s ∧
      ParseGame s = Result.ok (TicTacToe.mk [[Cell.X, Cell.O, Cell.None],
        [Cell.None, Cell.O, Cell.None], [Cell.X, Cell.O, Cell.None]] Cell.None) :=
  ⟨by decide, C14_String_ParseGame_round_trip _ (by decide) rfl⟩

/-- The text that one grid position contributes when the formatters are the identity. -/
theorem Ultimate.stringCell_id (u : Ultimate) (hwf : u.WellFormed) (row col : Int)
    (hrow : 0 ≤ row ∧ row ≤ 8) (hcol : 0 ≤ col ∧ col ≤ 8) :
    (∃ g, u.GameAt ⟨row / 3, col / 3⟩ = some g ∧
      g.CellAt ⟨row % 3, col % 3⟩ = Result.ok (u.gridCell row col)) ∧
    u.stringCell id id id row col = Result.ok [(u.gridCell row col).toRune] := by
  have hgp : Position.InRange ⟨row / 3, col / 3⟩ := by
    refine ⟨?_, ?_, ?_, ?_⟩ <;> simp only <;> omega
  have hcp : Position.InRange ⟨row % 3, col % 3⟩ := by
    refine ⟨?_, ?_, ?_, ?_⟩ <;> simp only <;> omega
  obtain ⟨g, hg, hg3⟩ := u.GameAt_of_inRange hwf _ hgp
  obtain ⟨cell, hcell⟩ := g.CellAt_ok_of_inRange hg3 _ hcp
  have hgrid : u.gridCell row col = cell := by
    simp [Ultimate.gridCell, hg, hcell]
  refine ⟨⟨g, hg, by rw [hgrid]; exact hcell⟩, ?_⟩
  have e1 : Int.tdiv row 3 = row / 3 := Int.tdiv_eq_ediv hrow.1 (by decide)
  have e2 : Int.tdiv col 3 = col / 3 := Int.tdiv_eq_ediv hcol.1 (by decide)
  have e3 : Int.tmod row 3 = row % 3 := Int.tmod_eq_emod hrow.1 (by decide)
  have e4 : Int.tmod col 3 = col % 3 := Int.tmod_eq_emod hcol.1 (by decide)
  simp only [Ultimate.stringCell, e1, e2, e3, e4, hg, TicTacToe.cellIgnoringError, hcell,
    g.DetectWin_eq hg3, hgrid, Cell.String, id]
  split
  · rfl
  · split <;> rfl

theorem Ultimate.stringColumns_id (u : Ultimate) (hwf : u.WellFormed) (row : Int)
    (hrow : 0 ≤ row ∧ row ≤ 8) (cols : List Int) (hcols : ∀ col ∈ cols, 0 ≤ col ∧ col ≤ 8)
    (toFmt : List (List Char)) :
    u.stringColumns id id id row cols toFmt =
      Result.ok (toFmt ++ cols.map (fun col => [(u.gridCell row col).toRune])) := by
  induction cols generalizing toFmt with
  | nil => simp [Ultimate.stringColumns]
  | cons col rest ih =>
    simp only [Ultimate.stringColumns,
      (u.stringCell_id hwf row col hrow (hcols col (by simp))).2]
    rw [ih (fun c hc => hcols c (List.mem_cons_of_mem _ hc))]
    simp

theorem Ultimate.stringRows_id (u : Ultimate) (hwf : u.WellFormed) (rows : List Int)
    (hrows : ∀ row ∈ rows, 0 ≤ row ∧ row ≤ 8) (toFmt : List (List Char)) :
    u.stringRows id id id rows toFmt =
      Result.ok (toFmt ++ rows.flatMap (fun row =>
        [0, 1, 2, 3, 4, 5, 6, 7, 8].map (fun col => [(u.gridCell row col).toRune]))) := by
  induction rows generalizing toFmt with
  | nil => simp [Ultimate.stringRows]
  | cons row rest ih =>
    simp only [Ultimate.stringRows]
    rw [u.stringColumns_id hwf row (hrows row (by simp)) [0, 1, 2, 3, 4, 5, 6, 7, 8]
      (by decide)]
    simp only
    rw [ih (fun r hr => hrows r (List.mem_cons_of_mem _ hr))]
    simp

theorem Sprintf_separator (rest : List Char) (args : List (List Char)) :
    Sprintf (separatorLine ++ rest) args = separatorLine ++ Sprintf rest args := by
  simp [separatorLine, Sprintf]

theorem Sprintf_cellLine (rest : List Char) (args : List (List Char))
    (c0 c1 c2 c3 c4 c5 c6 c7 c8 : Char) :
    Sprintf ("| %s%s%s || %s%s%s || %s%s%s |\n".toList ++ rest)
      ([c0] :: [c1] :: [c2] :: [c3] :: [c4] :: [c5] :: [c6] :: [c7] :: [c8] :: args) =
      "| ".toList ++ [c0, c1, c2] ++ " || ".toList ++ [c3, c4, c5] ++ " || ".toList ++
        [c6, c7, c8] ++ " |\n".toList ++ Sprintf rest args := by
  simp [Sprintf]

theorem ultimateTemplate_eq :
    ultimateTemplate = '\n' :: (separatorLine ++
      ("| %s%s%s || %s%s%s || %s%s%s |\n".toList ++
      ("| %s%s%s || %s%s%s || %s%s%s |\n".toList ++
      ("| %s%s%s || %s%s%s || %s%s%s |\n".toList ++
      (separatorLine ++
      ("| %s%s%s || %s%s%s || %s%s%s |\n".toList ++
      ("| %s%s%s || %s%s%s || %s%s%s |\n".toList ++
      ("| %s%s%s || %s%s%s || %s%s%s |\n".toList ++
      (separatorLine ++
      ("| %s%s%s || %s%s%s || %s%s%s |\n".toList ++
      ("| %s%s%s || %s%s%s || %s%s%s |\n".toList ++
      ("| %s%s%s || %s%s%s || %s%s%s |\n".toList ++
      (separatorLine ++ []))))))))))))) := by
  decide

theorem Sprintf_ultimateTemplate (ch : Int → Int → Char) :
    Sprintf ultimateTemplate
      ([0, 1, 2, 3, 4, 5, 6, 7, 8].flatMap (fun row =>
        [0, 1, 2, 3, 4, 5, 6, 7, 8].map (fun col => [ch row col]))) = renderGrid ch := by
  rw [ultimateTemplate_eq]
  simp only [List.flatMap_cons, List.flatMap_nil, List.map_cons, List.map_nil,
    List.cons_append, List.nil_append, List.append_nil]
  simp only [Sprintf, Sprintf_separator, Sprintf_cellLine, renderGrid, cellLine,
    List.append_assoc, List.cons_append, List.nil_append, List.append_nil]
  rfl

/-- Claim C17: for every well-formed state, `String` called with three identity formatters
returns a line feed followed by thirteen lines, each ended by a line feed: the separator
`+-----++-----++-----+` before, between and after the three bands of sub-boards, and nine
cell lines `| ccc || ccc || ccc |` in which the character at grid row `r` and grid column
`c` (both 0..8) is `'X'`, `'O'` or `'-'` for the cell at position `(r mod 3, c mod 3)` of
the sub-board at `(r div 3, c div 3)`. -/
theorem C17_String_renders_grid (u : Ultimate) (hwf : u.WellFormed) :
    u.String id id id = Result.ok (renderGrid (fun r c => (u.gridCell r c).toRune)) ∧
    (∀ r c : Int, 0 ≤ r ∧ r ≤ 8 → 0 ≤ c ∧ c ≤ 8 →
      ∃ g, u.GameAt ⟨r / 3, c / 3⟩ = some g ∧
        g.CellAt ⟨r % 3, c % 3⟩ = Result.ok (u.gridCell r c)) := by
  constructor
  · simp only [Ultimate.String]
    rw [u.stringRows_id hwf [0, 1, 2, 3, 4, 5, 6, 7, 8] (by decide) []]
    simp only [List.nil_append]
    rw [Sprintf_ultimateTemplate]
  · intro r c hr hc
    exact (u.stringCell_id hwf r c hr hc).1

/-- Claim C15: for every text whose trimmed form splits at line feeds into exactly three
rows, each of which trims to exactly three characters out of `'X'`, `'O'`, `'-'`:
`ParseGame` succeeds, the cell at `(row, col)` of the result is the mark named by the
`col`-th character of that row (`'-'` is `None`), and `String()` of the result is the
three trimmed rows joined by single line feeds, with no line feed in front or at the end. -/
theorem C15_ParseGame_three_rows (s r0 r1 r2 : List Char)
    (a0 b0 c0 a1 b1 c1 a2 b2 c2 : Char)
    (hsplit : Split (TrimSpace s) '\n' = [r0, r1, r2])
    (h0 : TrimSpace r0 = [a0, b0, c0]) (h1 : TrimSpace r1 = [a1, b1, c1])
    (h2 : TrimSpace r2 = [a2, b2, c2])
    (hrunes : ∀ ch ∈ [a0, b0, c0, a1, b1, c1, a2, b2, c2], IsBoardRune ch) :
    ∃ b, ParseGame s = Result.ok b ∧
      b.CellAt ⟨0, 0⟩ = Result.ok (markOf a0) ∧ b.CellAt ⟨0, 1⟩ = Result.ok (markOf b0) ∧
      b.CellAt ⟨0, 2⟩ = Result.ok (markOf c0) ∧ b.CellAt ⟨1, 0⟩ = Result.ok (markOf a1) ∧
      b.CellAt ⟨1, 1⟩ = Result.ok (markOf b1) ∧ b.CellAt ⟨1, 2⟩ = Result.ok (markOf c1) ∧
      b.CellAt ⟨2, 0⟩ = Result.ok (markOf a2) ∧ b.CellAt ⟨2, 1⟩ = Result.ok (markOf b2) ∧
      b.CellAt ⟨2, 2⟩ = Result.ok (markOf c2) ∧
      b.String = Result.ok (TrimSpace r0 ++ '\n' :: (TrimSpace r1 ++ '\n' :: TrimSpace r2)) := by
  refine ⟨_, (ParseGame_of_rows s r0 r1 r2 [] a0 b0 c0 a1 b1 c1 a2 b2 c2 [] [] [] hsplit
    h0 h1 h2).1 hrunes, ?_, ?_, ?_, ?_, ?_, ?_, ?_, ?_, ?_, ?_⟩
  · simp [TicTacToe.CellAt, goIndex]
  · simp [TicTacToe.CellAt, goIndex]
  · simp [TicTacToe.CellAt, goIndex]
  · simp [TicTacToe.CellAt, goIndex]
  · simp [TicTacToe.CellAt, goIndex]
  · simp [TicTacToe.CellAt, goIndex]
  · simp [TicTacToe.CellAt, goIndex]
  · simp [TicTacToe.CellAt, goIndex]
  · simp [TicTacToe.CellAt, goIndex]
  · simp only [List.mem_cons, List.mem_singleton, forall_eq_or_imp, forall_eq,
      List.not_mem_nil, IsEmpty.forall_iff, implies_true, and_true] at hrunes
    obtain ⟨v0, v1, v2, v3, v4, v5, v6, v7, v8⟩ := hrunes
    rw [TicTacToe.String_of_cells, h0, h1, h2,
      (runeCell_of_boardRune _ v0).2, (runeCell_of_boardRune _ v1).2,
      (runeCell_of_boardRune _ v2).2, (runeCell_of_boardRune _ v3).2,
      (runeCell_of_boardRune _ v4).2, (runeCell_of_boardRune _ v5).2,
      (runeCell_of_boardRune _ v6).2, (runeCell_of_boardRune _ v7).2,
      (runeCell_of_boardRune _ v8).2]
    rfl

/-- The text of `TestParseGame` parses to its board and prints back as its three trimmed rows. -/
theorem C15_witness :
    ParseGame "\nXO-\n-O-\nXO-\n".toList = Result.ok (TicTacToe.mk [[Cell.X, Cell.O, Cell.None],
      [Cell.None, Cell.O, Cell.None], [Cell.X, Cell.O, Cell.None]] Cell.None) ∧
    ∃ b, ParseGame "\nXO-\n-O-\nXO-\n".toList = Result.ok b ∧
      b.String = Result.ok "XO-\n-O-\nXO-".toList := by
  refine ⟨by decide, ?_⟩
  obtain ⟨b, hb, -, -, -, -, -, -, -, -, -, hs⟩ :=
    C15_ParseGame_three_rows "\nXO-\n-O-\nXO-\n".toList "XO-".toList "-O-".toList "XO-".toList
      'X' 'O' '-' '-' 'O' '-' 'X' 'O' '-' (by decide) (by decide) (by decide) (by decide)
      (by decide)
  exact ⟨b, hb, hs.trans (by decide)⟩

/-- Claim C16 (as amended): for every text whose trimmed form has at least three rows, the
first three of which have at least three characters after trimming, `ParseGame` reads
exactly the first three characters of the first three rows: it returns the board they
name when all nine are out of `'X'`, `'O'`, `'-'`, and the invalid-character error (and
no board) when one of the nine is not.  Further rows and further characters of a row are
not looked at. -/
theorem C16_ParseGame_reads_nine_characters (s r0 r1 r2 : List Char)
    (more : List (List Char)) (a0 b0 c0 a1 b1 c1 a2 b2 c2 : Char) (e0 e1 e2 : List Char)
    (hsplit : Split (TrimSpace s) '\n' = r0 :: r1 :: r2 :: more)
    (h0 : TrimSpace r0 = a0 :: b0 :: c0 :: e0) (h1 : TrimSpace r1 = a1 :: b1 :: c1 :: e1)
    (h2 : TrimSpace r2 = a2 :: b2 :: c2 :: e2) :
    ((∀ ch ∈ [a0, b0, c0, a1, b1, c1, a2, b2, c2], IsBoardRune ch) →
      ParseGame s = Result.ok
        { Cells := [[markOf a0, markOf b0, markOf c0], [markOf a1, markOf b1, markOf c1],
                    [markOf a2, markOf b2, markOf c2]],
          WonBy := Cell.None }) ∧
    ((∃ ch ∈ [a0, b0, c0, a1, b1, c1, a2, b2, c2], ¬ IsBoardRune ch) →
      ParseGame s = Result.error GameError.invalidCharacter) :=
  ParseGame_of_rows s r0 r1 r2 more a0 b0 c0 a1 b1 c1 a2 b2 c2 e0 e1 e2 hsplit h0 h1 h2

/-- Texts with rows of four characters, with five rows, and with a character outside the
encoding in a fourth column are accepted; the empty text, a text of two rows and a text
with a row of two characters make `ParseGame` panic instead of returning an error. -/
theorem C16_counterexample :
    ParseGame "XOXO\n-O-O\nXO--".toList = Result.ok (TicTacToe.mk [[Cell.X, Cell.O, Cell.X],
      [Cell.None, Cell.O, Cell.None], [Cell.X, Cell.O, Cell.None]] Cell.None) ∧
    ParseGame "XO-\n-O-\nXO-\nOOO\nab".toList = Result.ok (TicTacToe.mk
      [[Cell.X, Cell.O, Cell.None], [Cell.None, Cell.O, Cell.None],
        [Cell.X, Cell.O, Cell.None]] Cell.None) ∧
    ParseGame "XO-z\n-O-\nXO-".toList = Result.ok (TicTacToe.mk
      [[Cell.X, Cell.O, Cell.None], [Cell.None, Cell.O, Cell.None],
        [Cell.X, Cell.O, Cell.None]] Cell.None) ∧
    ParseGame "".toList = Result.panicked ∧
    ParseGame "XO-\n-O-".toList = Result.panicked ∧
    ParseGame "XO-\n-O\nXO-".toList = Result.panicked := by
  decide

/-- A `z` among the nine characters read gives the invalid-character error. -/
theorem C16_witness :
    ParseGame "XO-\n-Oz\nXO-".toList = Result.error GameError.invalidCharacter :=
  (C16_ParseGame_reads_nine_characters "XO-\n-Oz\nXO-".toList "XO-".toList "-Oz".toList
    "XO-".toList [] 'X' 'O' '-' '-' 'O' 'z' 'X' 'O' '-' [] [] [] (by decide) (by decide)
    (by decide) (by decide)).2 ⟨'z', by decide, by decide⟩

/-- The state of `TestUltimateString` renders as the text that test expects. -/
theorem C17_witness :
    testStringState.WellFormed ∧
    testStringState.String id id id = Result.ok
      ("\n+-----++-----++-----+\n| --- || --- || --- |\n| --- || --- || --- |\n" ++
       "| --- || --- || --- |\n+-----++-----++-----+\n| --- || --- || XXO |\n" ++
       "| --- || --- || O-O |\n| --- || --- || X-O |\n+-----++-----++-----+\n" ++
       "| --- || --- || X-O |\n| --- || --- || -XO |\n| --- || --- || XOX |\n" ++
       "+-----++-----++-----+\n").toList :=
  ⟨by decide, (C17_String_renders_grid testStringState (by decide)).1.trans (by decide)⟩

end Utictac
